import Mathlib

/-!
# compare/compare.go

A shallow embedding of the dual-execution comparison engine of
`compare/compare.go` and the properties of its comparator, batch driver and
warehouse read path.

Conventions of the embedding.

* A Go `string` / `[]byte` is the list of its code units (`GoString`); a nil
  `[]byte` cell is `none`.
* A Go `error` is `Option GoError`, `none` being `nil`.
* A connection handle is a state machine: running a statement takes the
  handle's state and gives an outcome and the next state.  The two side
  workers of one statement touch different handles, so their joint effect
  is the pair of their effects.
* `sync.WaitGroup` is its counter; `Wait` returns when, after both workers
  have finished, the counter is zero.  A `Wait` that cannot return and a
  method call on a nil result are the two ways a call yields no value
  (`Halt`).
* `log.Println` / `log.Printf` write diagnostics only and are left out.
-/

namespace Compare

/-- A Go `string` or `[]byte`: the sequence of its code units. -/
abbrev GoString := List Char

/-- A non-nil Go `error` value, identified by its text. -/
structure GoError where
  text : GoString
deriving DecidableEq

/-- Why a call yields no value: `wg.Wait()` never released, or a method
called on a nil `*SqlResult`. -/
inductive Halt where
  | deadlock
  | nilResult
deriving DecidableEq

/-- Embedding of `SqlResult`, as `ByHiveSql` constructs it: `Data [][][]byte` (a nil cell
is `none`), `Rows map[string]bool` (only `true` is ever stored, so the map
is its key set) and `Header []string`. -/
structure SqlResult where
  Data : List (List (Option GoString))
  Rows : Finset GoString
  Header : List GoString
deriving DecidableEq

/-- Embedding of `QueryDsnRes`: a nullable result and an error. -/
structure QueryDsnRes where
  Res : Option SqlResult
  err : Option GoError
deriving DecidableEq

/-- Embedding of `execDsnRes`: an affected-row count (`int64`, only compared) and an
error. -/
structure execDsnRes where
  rowsAffected : Int
  err : Option GoError
deriving DecidableEq

/-- The interface `DsnRes`, with its two implementations. -/
inductive DsnRes where
  | query (q : QueryDsnRes)
  | exec (e : execDsnRes)
deriving DecidableEq

/-- Embedding of `DsnRes.Err()`. -/
def DsnRes.Err : DsnRes → Option GoError
  | .query q => q.err
  | .exec e => e.err

/-- Modelled from the spec: the helpers `query` and `exec` behind a `*sql.DB`
are not in compare.go.  A handle "runs it and produces a Result
Representation or failure" (a read), or an affected-row count together with
an optional failure (a write); running a statement may change the handle's
state. -/
structure Db (S : Type) where
  query : GoString → S → Except GoError SqlResult × S
  exec : GoString → S → (Int × Option GoError) × S

/-- Embedding of `newQueryDsnRes`: the pair returned by `query(db, sql)` stored in a `QueryDsnRes`. -/
def newQueryDsnRes {S : Type} (db : Db S) (sql : GoString) (s : S) : QueryDsnRes × S :=
  match db.query sql s with
  | (.ok result, s') => (⟨some result, none⟩, s')
  | (.error err, s') => (⟨none, some err⟩, s')

/-- Embedding of `newExecDsnRes`: the pair returned by `exec(db, sql)` stored in an `execDsnRes`. -/
def newExecDsnRes {S : Type} (db : Db S) (sql : GoString) (s : S) : execDsnRes × S :=
  match db.exec sql s with
  | ((r, err), s') => (⟨r, err⟩, s')

/-- Embedding of `errConsistent`: `(err1 == nil && err2 == nil) || (err1 != nil && err2 != nil)`. -/
def errConsistent (err1 err2 : Option GoError) : Bool :=
  (err1.isNone && err2.isNone) || (err1.isSome && err2.isSome)

/-- The counter of a `sync.WaitGroup`. -/
structure WaitGroup where
  counter : Int
deriving DecidableEq

/-- Embedding of `wg.Add(n)`. -/
def WaitGroup.Add (wg : WaitGroup) (n : Int) : WaitGroup := ⟨wg.counter + n⟩

/-- Embedding of `wg.Done()`. -/
def WaitGroup.Done (wg : WaitGroup) : WaitGroup := ⟨wg.counter - 1⟩

/-- Whether `wg.Wait()` returns once every worker has finished: the counter
must have come back to zero. -/
def WaitGroup.Wait (wg : WaitGroup) : Bool := decide (wg.counter = 0)

/-- Modelled from the spec: `(*SqlResult).BytesEqualTo` is not in compare.go.
Ordered mode: "`A.rows` and `B.rows` are positionally identical (same row
count, same cell bytes at each position, including NULL-ness)".  First the
comparison of two cells. -/
def cellBytesEqual : Option GoString → Option GoString → Bool
  | none, none => true
  | some x, some y => decide (x = y)
  | _, _ => false

/-- Modelled from the spec: as `cellBytesEqual`, the comparison of two rows
cell by cell. -/
def rowBytesEqual : List (Option GoString) → List (Option GoString) → Bool
  | [], [] => true
  | x :: xs, y :: ys => cellBytesEqual x y && rowBytesEqual xs ys
  | _, _ => false

/-- Modelled from the spec: as `cellBytesEqual`, the comparison of two row
lists position by position. -/
def rowsBytesEqual : List (List (Option GoString)) → List (List (Option GoString)) → Bool
  | [], [] => true
  | r :: rs, t :: ts => rowBytesEqual r t && rowsBytesEqual rs ts
  | _, _ => false

/-- Modelled from the spec: `(*SqlResult).BytesEqualTo`, the ordered
comparison of two results; it reads the rows only. -/
def SqlResult.BytesEqualTo (a b : SqlResult) : Bool := rowsBytesEqual a.Data b.Data

/-- Modelled from the spec: `(*SqlResult).NonOrderEqualTo` is not in
compare.go.  Unordered mode: "`A.rowSignatures == B.rowSignatures` as sets
(header content is not compared)". -/
def SqlResult.NonOrderEqualTo (a b : SqlResult) : Bool := decide (a.Rows = b.Rows)

/-- The code of `ByQuery` after `wg.Wait()` (lines 222-250), which is also,
line for line, the code of `ByHiveSql` after `wg.Wait()` (lines 160-188). -/
def compareQuery (nonOrder : Bool) (res1 res2 : QueryDsnRes) :
    Except Halt (Bool × DsnRes × DsnRes) :=
  if !errConsistent res1.err res2.err then
    .ok (false, .query res1, .query res2)
  else if res1.err.isSome && res2.err.isSome then
    .ok (true, .query res1, .query res2)
  else
    match res1.Res, res2.Res with
    | some r1, some r2 =>
      if nonOrder then
        if !r1.NonOrderEqualTo r2 then .ok (false, .query res1, .query res2)
        else .ok (true, .query res1, .query res2)
      else
        if !r1.BytesEqualTo r2 then .ok (false, .query res1, .query res2)
        else .ok (true, .query res1, .query res2)
    | _, _ => .error Halt.nilResult

/-- The code of `ByExec` after `wg.Wait()` (lines 274-294). -/
def compareExec (res1 res2 : execDsnRes) : Bool × DsnRes × DsnRes :=
  if !errConsistent res1.err res2.err then
    (false, .exec res1, .exec res2)
  else if res1.err.isSome && res2.err.isSome then
    (true, .exec res1, .exec res2)
  else if res1.rowsAffected ≠ res2.rowsAffected then
    (false, .exec res1, .exec res2)
  else
    (true, .exec res1, .exec res2)

/-- Embedding of `ByQuery`: two workers, each running the statement on its handle and
signalling the wait group, then the comparison. -/
def ByQuery {S1 S2 : Type} (sql : GoString) (db1 : Db S1) (db2 : Db S2) (nonOrder : Bool)
    (s1 : S1) (s2 : S2) : Except Halt (Bool × DsnRes × DsnRes) × S1 × S2 :=
  let wg := (WaitGroup.mk 0).Add 2
  let (res1, s1') := newQueryDsnRes db1 sql s1
  let wg := wg.Done
  let (res2, s2') := newQueryDsnRes db2 sql s2
  let wg := wg.Done
  if wg.Wait then (compareQuery nonOrder res1 res2, s1', s2')
  else (.error Halt.deadlock, s1', s2')

/-- Embedding of `ByExec`: two workers, each executing the statement on its handle and
signalling the wait group, then the comparison. -/
def ByExec {S1 S2 : Type} (sql : GoString) (db1 : Db S1) (db2 : Db S2)
    (s1 : S1) (s2 : S2) : Except Halt (Bool × DsnRes × DsnRes) × S1 × S2 :=
  let wg := (WaitGroup.mk 0).Add 2
  let (res1, s1') := newExecDsnRes db1 sql s1
  let wg := wg.Done
  let (res2, s2') := newExecDsnRes db2 sql s2
  let wg := wg.Done
  if wg.Wait then (.ok (compareExec res1 res2), s1', s2')
  else (.error Halt.deadlock, s1', s2')

/-- Embedding of `BySql`.  The classifier `isExec` is not in compare.go and is a
parameter. -/
def BySql {S1 S2 : Type} (isExec : GoString → Bool) (sql : GoString) (db1 : Db S1) (db2 : Db S2)
    (nonOrder : Bool) (s1 : S1) (s2 : S2) : Except Halt (Bool × DsnRes × DsnRes) × S1 × S2 :=
  if isExec sql then ByExec sql db1 db2 s1 s2
  else ByQuery sql db1 db2 nonOrder s1 s2

/-- A `Visitor`: a callback with its own state. -/
abbrev Visitor (V : Type) := GoString → DsnRes → DsnRes → V → Option GoError × V

/-- What `ByDb` did, in order: a statement handed to `BySql` with the verdict
and outcomes it gave, or a call of the visitor with its arguments and the
error it returned.  The record is kept beside the run and never read by it. -/
inductive Event where
  | run (sql : GoString) (consistent : Bool) (dsn1Res dsn2Res : DsnRes)
  | halted (sql : GoString) (h : Halt)
  | visit (sql : GoString) (dsn1Res dsn2Res : DsnRes) (err : Option GoError)
deriving DecidableEq

/-- The state `ByDb` runs in: the two handles' states and the visitor's. -/
structure World (S1 S2 V : Type) where
  s1 : S1
  s2 : S2
  v : V

/-- Embedding of `ByDb`: the loop over the statements.  Returns the error (or that the
call yields no value), the record of what was done, and the final state. -/
def ByDb {S1 S2 V : Type} (isExec : GoString → Bool) (db1 : Db S1) (db2 : Db S2)
    (nonOrder : Bool) (visitor : Visitor V) :
    List GoString → World S1 S2 V → Except Halt (Option GoError) × List Event × World S1 S2 V
  | [], w => (.ok none, [], w)
  | sql :: sqls, w =>
    if sql = [] then ByDb isExec db1 db2 nonOrder visitor sqls w
    else
      match BySql isExec sql db1 db2 nonOrder w.s1 w.s2 with
      | (.error h, s1', s2') => (.error h, [Event.halted sql h], ⟨s1', s2', w.v⟩)
      | (.ok (consistent, dsn1Res, dsn2Res), s1', s2') =>
        if !consistent then
          match visitor sql dsn1Res dsn2Res w.v with
          | (some err, v') =>
            (.ok (some err),
              [Event.run sql consistent dsn1Res dsn2Res, Event.visit sql dsn1Res dsn2Res (some err)],
              ⟨s1', s2', v'⟩)
          | (none, v') =>
            let r := ByDb isExec db1 db2 nonOrder visitor sqls ⟨s1', s2', v'⟩
            (r.1, Event.run sql consistent dsn1Res dsn2Res ::
                Event.visit sql dsn1Res dsn2Res none :: r.2.1, r.2.2)
        else
          let r := ByDb isExec db1 db2 nonOrder visitor sqls ⟨s1', s2', w.v⟩
          (r.1, Event.run sql consistent dsn1Res dsn2Res :: r.2.1, r.2.2)

/-- Embedding of `strings.Split(s, sep)` for a one-unit separator: the pieces of `s`
between the occurrences of `sep`, at least one piece. -/
def stringsSplit (sep : Char) : GoString → List GoString
  | [] => [[]]
  | c :: cs =>
    if c = sep then [] :: stringsSplit sep cs
    else
      match stringsSplit sep cs with
      | [] => [[c]]
      | p :: ps => (c :: p) :: ps

/-- Embedding of `strings.Split(s, ".")[0]`. -/
def splitFirst (s : GoString) : GoString :=
  match stringsSplit '.' s with
  | p :: _ => p
  | [] => []

/-- The type tag `"TIMESTAMP_TYPE"`. -/
def TIMESTAMP_TYPE : GoString := "TIMESTAMP_TYPE".toList

/-- The text written for a nil cell, `"NULL\t"`. -/
def nullText : GoString := ['N', 'U', 'L', 'L', '\t']

/-- Bytes of a fresh `bytes.Buffer` after one `WriteString(s)`, as
`cellStrBuf.Bytes()` returns them: the text written; a buffer to which
nothing was written has never allocated, and its `Bytes()` is the nil
slice. -/
def bufferBytes (s : GoString) : Option GoString :=
  if s = [] then none else some s

/-- The bytes a `[]byte` holds, none for the nil slice. -/
def sliceBytes : Option GoString → GoString
  | none => []
  | some b => b

/-- One entry of `cursor.Description()`: `desc[i][0]` is the column name,
`desc[i][1]` its type tag. -/
structure ColDesc where
  name : GoString
  typeTag : GoString
deriving DecidableEq

/-- What the warehouse cursor holds after `cursor.Exec(ctx, sql)`: its error
state, its column descriptors, and the rows that `HasMore` / `RowMap` hand
out, each a lookup from column name to value (nil when absent or NULL). -/
structure HiveCursor (Value : Type) where
  Err : Option GoError
  Description : List ColDesc
  rows : List (GoString → Option Value)

/-- The warehouse connection `*gohive.Connection`: opening a cursor and
executing a statement on it. -/
structure Hive (H Value : Type) where
  Exec : GoString → H → HiveCursor Value × H

section Warehouse

variable {Value : Type} (Sprint : Value → GoString)

/-- Lines 141-144: `cellValueStr := fmt.Sprint(cellValue)`, cut at the first
`.` when `desc[i][1] == "TIMESTAMP_TYPE"`. -/
def cellValueStr (d : ColDesc) (cellValue : Value) : GoString :=
  let cellValueStr := Sprint cellValue
  if d.typeTag = TIMESTAMP_TYPE then splitFirst cellValueStr else cellValueStr

/-- One turn of the inner loop (lines 134-147): the value stored in
`columns[i]` and the text written to `rowStrBuf`. -/
def hiveCell (d : ColDesc) (row : GoString → Option Value) : Option GoString × GoString :=
  match row d.name with
  | none => (none, nullText)
  | some cellValue =>
    let cellStrBuf := cellValueStr Sprint d cellValue
    (bufferBytes cellStrBuf, cellStrBuf ++ ['\t'])

/-- The inner loop (lines 131-148) over the columns of one row: the row's
`columns` and its `rowStrBuf`. -/
def hiveRow (desc : List ColDesc) (row : GoString → Option Value) :
    List (Option GoString) × GoString :=
  desc.foldl
    (fun acc d => (acc.1 ++ [(hiveCell Sprint d row).1], acc.2 ++ (hiveCell Sprint d row).2))
    ([], [])

/-- The outer loop (lines 126-152) over the fetched rows: `allRows` and
`rowSet`. -/
def hiveRows (desc : List ColDesc) (rows : List (GoString → Option Value)) :
    List (List (Option GoString)) × Finset GoString :=
  rows.foldl
    (fun acc row => (acc.1 ++ [(hiveRow Sprint desc row).1], insert (hiveRow Sprint desc row).2 acc.2))
    ([], ∅)

/-- The result built at line 154, of `allRows`, `rowSet` and `cols`. -/
def hiveResult (cursor : HiveCursor Value) : SqlResult :=
  { Data := (hiveRows Sprint cursor.Description cursor.rows).1
    Rows := (hiveRows Sprint cursor.Description cursor.rows).2
    Header := cursor.Description.map (fun d => d.name) }

/-- The second worker of `ByHiveSql` (lines 109-156): the outcome it leaves in
`res2` and the wait group as it leaves it.  On a cursor error it returns at
line 118, before the `wg.Done()` of line 155. -/
def hiveWorker {H : Type} (connHive : Hive H Value) (sql : GoString) (h : H) (wg : WaitGroup) :
    QueryDsnRes × WaitGroup × H :=
  match connHive.Exec sql h with
  | (cursor, h') =>
    match cursor.Err with
    | some err => (⟨none, some err⟩, wg, h')
    | none => (⟨some (hiveResult Sprint cursor), none⟩, wg.Done, h')

/-- Embedding of `ByHiveSql`. -/
def ByHiveSql {S1 S2 H : Type} (isExec : GoString → Bool) (sql : GoString) (db1 : Db S1)
    (db2 : Db S2) (connHive : Hive H Value) (nonOrder : Bool) (s1 : S1) (s2 : S2) (h : H) :
    Except Halt (Bool × DsnRes × DsnRes) × S1 × S2 × H :=
  if isExec sql then
    let r := ByExec sql db1 db2 s1 s2
    (r.1, r.2.1, r.2.2, h)
  else
    let wg := (WaitGroup.mk 0).Add 2
    let (res1, s1') := newQueryDsnRes db1 sql s1
    let wg := wg.Done
    let (res2, wg, h') := hiveWorker Sprint connHive sql h wg
    if wg.Wait then (compareQuery nonOrder res1 res2, s1', s2, h')
    else (.error Halt.deadlock, s1', s2, h')

end Warehouse

/-! ## Reading the record of a batch -/

/-- The statement of an event in which a statement was handed to `BySql`. -/
def Event.runSql : Event → Option GoString
  | .run sql _ _ _ => some sql
  | .halted sql _ => some sql
  | .visit _ _ _ _ => none

/-- The statement and outcomes of an event in which `BySql` gave the verdict
inconsistent. -/
def Event.inconsistentRun : Event → Option (GoString × DsnRes × DsnRes)
  | .run sql false dsn1Res dsn2Res => some (sql, dsn1Res, dsn2Res)
  | _ => none

/-- The arguments of a call of the visitor. -/
def Event.visitCall : Event → Option (GoString × DsnRes × DsnRes)
  | .visit sql dsn1Res dsn2Res _ => some (sql, dsn1Res, dsn2Res)
  | _ => none

/-- The error of a call of the visitor that returned one. -/
def Event.visitError : Event → Option GoError
  | .visit _ _ _ (some err) => some err
  | _ => none

/-- The shapes a batch can take, statement by statement: an empty statement
leaves no event; a consistent statement leaves its run; an inconsistent one
leaves its run and the visitor's call, and the batch goes on when the
visitor returned nil and ends there with the visitor's error otherwise. -/
inductive Shape : List GoString → Except Halt (Option GoError) → List Event → Prop where
  | done : Shape [] (.ok none) []
  | skip {sqls r t} : Shape sqls r t → Shape ([] :: sqls) r t
  | consistent {sql sqls r t} (dsn1Res dsn2Res : DsnRes) :
      sql ≠ [] → Shape sqls r t → Shape (sql :: sqls) r (Event.run sql true dsn1Res dsn2Res :: t)
  | accepted {sql sqls r t} (dsn1Res dsn2Res : DsnRes) :
      sql ≠ [] → Shape sqls r t →
      Shape (sql :: sqls) r
        (Event.run sql false dsn1Res dsn2Res :: Event.visit sql dsn1Res dsn2Res none :: t)
  | rejected {sql sqls} (dsn1Res dsn2Res : DsnRes) (err : GoError) :
      sql ≠ [] →
      Shape (sql :: sqls) (.ok (some err))
        [Event.run sql false dsn1Res dsn2Res, Event.visit sql dsn1Res dsn2Res (some err)]

/-- The state a batch is in after the events `t`, from the state `w`: a run
moves the two handles as `BySql` moves them on that statement, a call of
the visitor moves the visitor's state as `visitor` moves it on those
arguments. -/
def replay {S1 S2 V : Type} (isExec : GoString → Bool) (db1 : Db S1) (db2 : Db S2)
    (nonOrder : Bool) (visitor : Visitor V) : World S1 S2 V → List Event → World S1 S2 V
  | w, [] => w
  | w, Event.run sql _ _ _ :: t =>
    replay isExec db1 db2 nonOrder visitor
      ⟨(BySql isExec sql db1 db2 nonOrder w.s1 w.s2).2.1,
        (BySql isExec sql db1 db2 nonOrder w.s1 w.s2).2.2, w.v⟩ t
  | w, Event.halted sql _ :: t =>
    replay isExec db1 db2 nonOrder visitor
      ⟨(BySql isExec sql db1 db2 nonOrder w.s1 w.s2).2.1,
        (BySql isExec sql db1 db2 nonOrder w.s1 w.s2).2.2, w.v⟩ t
  | w, Event.visit sql dsn1Res dsn2Res _ :: t =>
    replay isExec db1 db2 nonOrder visitor
      ⟨w.s1, w.s2, (visitor sql dsn1Res dsn2Res w.v).2⟩ t

/-- A record in which every event is what the code computes at the state the
record has reached: a run carries the verdict and outcomes that `BySql`
returns there, a call of the visitor follows an inconsistent run, has that
run's statement and outcomes as arguments and carries the error that
`visitor` returns there. -/
inductive Faithful {S1 S2 V : Type} (isExec : GoString → Bool) (db1 : Db S1) (db2 : Db S2)
    (nonOrder : Bool) (visitor : Visitor V) :
    World S1 S2 V → List Event → World S1 S2 V → Prop where
  | done (w : World S1 S2 V) : Faithful isExec db1 db2 nonOrder visitor w [] w
  | consistent {w w' : World S1 S2 V} {t : List Event} {sql : GoString} {r1 r2 : DsnRes}
      {s1' : S1} {s2' : S2} :
      BySql isExec sql db1 db2 nonOrder w.s1 w.s2 = (.ok (true, r1, r2), s1', s2') →
      Faithful isExec db1 db2 nonOrder visitor ⟨s1', s2', w.v⟩ t w' →
      Faithful isExec db1 db2 nonOrder visitor w (Event.run sql true r1 r2 :: t) w'
  | reported {w w' : World S1 S2 V} {t : List Event} {sql : GoString} {r1 r2 : DsnRes}
      {s1' : S1} {s2' : S2} {err : Option GoError} {v' : V} :
      BySql isExec sql db1 db2 nonOrder w.s1 w.s2 = (.ok (false, r1, r2), s1', s2') →
      visitor sql r1 r2 w.v = (err, v') →
      Faithful isExec db1 db2 nonOrder visitor ⟨s1', s2', v'⟩ t w' →
      Faithful isExec db1 db2 nonOrder visitor w
        (Event.run sql false r1 r2 :: Event.visit sql r1 r2 err :: t) w'

/-! ## Concrete handles -/

/-- A relational handle without state that answers every read with `r` and
every write with the count `n` and the error `e`. -/
def constDb (r : Except GoError SqlResult) (n : Int) (e : Option GoError) : Db Unit :=
  { query := fun _ s => (r, s)
    exec := fun _ s => ((n, e), s) }

/-- A warehouse connection without state whose cursor, after every
statement, is `cursor`. -/
def constHive {Value : Type} (cursor : HiveCursor Value) : Hive Unit Value :=
  { Exec := fun _ h => (cursor, h) }

/-- The result of a read that found no row and no column. -/
def emptyResult : SqlResult := { Data := [], Rows := ∅, Header := [] }

/-- A result of one row with one cell `x`, signature `x` followed by a tab. -/
def oneCellResult (x : GoString) : SqlResult :=
  { Data := [[some x]], Rows := {x ++ ['\t']}, Header := [['c']] }

/-- A failure value. -/
def syntaxError : GoError := ⟨"syntax error".toList⟩

/-- Another failure value. -/
def tableMissing : GoError := ⟨"table not found".toList⟩

/-- A read statement. -/
def selectOne : GoString := "SELECT 1".toList

/-- A classifier that takes every statement for a read. -/
def allReads : GoString → Bool := fun _ => false

/-- A classifier that takes every statement for a write. -/
def allWrites : GoString → Bool := fun _ => true

/-- A cursor in error after `Exec`. -/
def failedCursor (e : GoError) : HiveCursor GoString :=
  { Err := some e, Description := [], rows := [] }

/-- The text a cell contributes to its row's signature, before the tab:
`NULL` for a nil value, its `cellValueStr` otherwise. -/
def cellText {Value : Type} (Sprint : Value → GoString) (d : ColDesc)
    (row : GoString → Option Value) : GoString :=
  match row d.name with
  | none => ['N', 'U', 'L', 'L']
  | some cellValue => cellValueStr Sprint d cellValue

/-- A column of timestamps. -/
def tsColumn : ColDesc := { name := ['t'], typeTag := TIMESTAMP_TYPE }

/-- A column of strings. -/
def strColumn : ColDesc := { name := ['c'], typeTag := "STRING_TYPE".toList }

/-- A row in which every column holds the text `x`. -/
def textRow (x : GoString) : GoString → Option GoString := fun _ => some x

/-- A row in which every column is NULL. -/
def nullRow : GoString → Option GoString := fun _ => none

/-- The cursor, not in error, over the columns `desc` and the rows `rows`. -/
def cursorOf {Value : Type} (desc : List ColDesc) (rows : List (GoString → Option Value)) :
    HiveCursor Value :=
  { Err := none, Description := desc, rows := rows }

/-- A result of two one-cell rows `x`, `y`, in that order. -/
def twoRowResult (x y : GoString) : SqlResult :=
  { Data := [[some x], [some y]], Rows := {x ++ ['\t'], y ++ ['\t']}, Header := [['i', 'd']] }

/-- The statements of the end-to-end scenario: a read, an empty statement, a
write. -/
def scenarioSqls : List GoString :=
  ["SELECT id FROM t ORDER BY id".toList, [], "UPDATE t SET v=1 WHERE id=1".toList]

/-- A classifier for the scenario: the `UPDATE` is the write. -/
def scenarioIsExec : GoString → Bool :=
  fun sql => decide (sql = "UPDATE t SET v=1 WHERE id=1".toList)

/-- A visitor that counts its calls and accepts every report. -/
def countingVisitor : Visitor Nat := fun _ _ _ n => (none, n + 1)

/-- A visitor that counts its calls and fails every report. -/
def rejectingVisitor : Visitor Nat := fun _ _ _ n => (some syntaxError, n + 1)

/-! ## Basic facts -/

section Basic

variable {S1 S2 H Value : Type}

theorem errConsistent_iff (err1 err2 : Option GoError) :
    errConsistent err1 err2 = true ↔ (err1 = none ↔ err2 = none) := by
  cases err1 <;> cases err2 <;> simp [errConsistent]

theorem wait_after_two_done : (((WaitGroup.mk 0).Add 2).Done.Done).Wait = true := by
  decide

theorem wait_after_one_done : (((WaitGroup.mk 0).Add 2).Done).Wait = false := by
  decide

theorem ByQuery_eq (sql : GoString) (db1 : Db S1) (db2 : Db S2) (nonOrder : Bool)
    (s1 : S1) (s2 : S2) :
    ByQuery sql db1 db2 nonOrder s1 s2 =
      (compareQuery nonOrder (newQueryDsnRes db1 sql s1).1 (newQueryDsnRes db2 sql s2).1,
        (newQueryDsnRes db1 sql s1).2, (newQueryDsnRes db2 sql s2).2) := by
  simp [ByQuery, wait_after_two_done]

theorem ByExec_eq (sql : GoString) (db1 : Db S1) (db2 : Db S2) (s1 : S1) (s2 : S2) :
    ByExec sql db1 db2 s1 s2 =
      (.ok (compareExec (newExecDsnRes db1 sql s1).1 (newExecDsnRes db2 sql s2).1),
        (newExecDsnRes db1 sql s1).2, (newExecDsnRes db2 sql s2).2) := by
  simp [ByExec, wait_after_two_done]

theorem newQueryDsnRes_ok (db : Db S1) (sql : GoString) (s : S1) (r : SqlResult)
    (h : (db.query sql s).1 = .ok r) : (newQueryDsnRes db sql s).1 = ⟨some r, none⟩ := by
  unfold newQueryDsnRes
  rcases hq : db.query sql s with ⟨x, s'⟩
  rw [hq] at h
  simp only at h
  subst h
  rfl

theorem newQueryDsnRes_error (db : Db S1) (sql : GoString) (s : S1) (e : GoError)
    (h : (db.query sql s).1 = .error e) : (newQueryDsnRes db sql s).1 = ⟨none, some e⟩ := by
  unfold newQueryDsnRes
  rcases hq : db.query sql s with ⟨x, s'⟩
  rw [hq] at h
  simp only at h
  subst h
  rfl

/-- An outcome of `newQueryDsnRes` has a result exactly when it has no error. -/
theorem newQueryDsnRes_shape (db : Db S1) (sql : GoString) (s : S1) :
    (∃ r, (newQueryDsnRes db sql s).1 = ⟨some r, none⟩) ∨
      (∃ e, (newQueryDsnRes db sql s).1 = ⟨none, some e⟩) := by
  rcases hq : (db.query sql s).1 with e | r
  · exact Or.inr ⟨e, newQueryDsnRes_error db sql s e hq⟩
  · exact Or.inl ⟨r, newQueryDsnRes_ok db sql s r hq⟩

theorem newExecDsnRes_fst (db : Db S1) (sql : GoString) (s : S1) :
    (newExecDsnRes db sql s).1 = ⟨(db.exec sql s).1.1, (db.exec sql s).1.2⟩ := by
  unfold newExecDsnRes
  rcases db.exec sql s with ⟨⟨r, e⟩, s'⟩
  rfl

theorem cellBytesEqual_iff (x y : Option GoString) : cellBytesEqual x y = true ↔ x = y := by
  cases x <;> cases y <;> simp [cellBytesEqual]

theorem rowBytesEqual_iff (xs ys : List (Option GoString)) :
    rowBytesEqual xs ys = true ↔ xs = ys := by
  induction xs generalizing ys with
  | nil => cases ys <;> simp [rowBytesEqual]
  | cons x xs ih => cases ys <;> simp [rowBytesEqual, cellBytesEqual_iff, ih]

theorem rowsBytesEqual_iff (a b : List (List (Option GoString))) :
    rowsBytesEqual a b = true ↔ a = b := by
  induction a generalizing b with
  | nil => cases b <;> simp [rowsBytesEqual]
  | cons x xs ih => cases b <;> simp [rowsBytesEqual, rowBytesEqual_iff, ih]

theorem BytesEqualTo_iff (a b : SqlResult) : a.BytesEqualTo b = true ↔ a.Data = b.Data := by
  simp [SqlResult.BytesEqualTo, rowsBytesEqual_iff]

theorem NonOrderEqualTo_iff (a b : SqlResult) : a.NonOrderEqualTo b = true ↔ a.Rows = b.Rows := by
  simp [SqlResult.NonOrderEqualTo]

/-- The comparison of two outcomes that disagree on having a failure. -/
theorem compareQuery_of_not_errConsistent (nonOrder : Bool) (res1 res2 : QueryDsnRes)
    (h : errConsistent res1.err res2.err = false) :
    compareQuery nonOrder res1 res2 = .ok (false, .query res1, .query res2) := by
  simp [compareQuery, h]

/-- The comparison of two outcomes that both carry a failure. -/
theorem compareQuery_of_both_failed (nonOrder : Bool) (res1 res2 : QueryDsnRes) (e1 e2 : GoError)
    (h1 : res1.err = some e1) (h2 : res2.err = some e2) :
    compareQuery nonOrder res1 res2 = .ok (true, .query res1, .query res2) := by
  simp [compareQuery, errConsistent, h1, h2]

/-- The comparison of two successful outcomes. -/
theorem compareQuery_of_both_ok (nonOrder : Bool) (r1 r2 : SqlResult) :
    compareQuery nonOrder ⟨some r1, none⟩ ⟨some r2, none⟩ =
      .ok (if nonOrder then r1.NonOrderEqualTo r2 else r1.BytesEqualTo r2,
        .query ⟨some r1, none⟩, .query ⟨some r2, none⟩) := by
  cases nonOrder <;> simp [compareQuery, errConsistent]
  · cases r1.BytesEqualTo r2 <;> simp
  · cases r1.NonOrderEqualTo r2 <;> simp

theorem compareExec_of_not_errConsistent (res1 res2 : execDsnRes)
    (h : errConsistent res1.err res2.err = false) :
    compareExec res1 res2 = (false, .exec res1, .exec res2) := by
  simp [compareExec, h]

theorem compareExec_of_both_failed (res1 res2 : execDsnRes) (e1 e2 : GoError)
    (h1 : res1.err = some e1) (h2 : res2.err = some e2) :
    compareExec res1 res2 = (true, .exec res1, .exec res2) := by
  simp [compareExec, errConsistent, h1, h2]

theorem compareExec_of_both_ok (res1 res2 : execDsnRes)
    (h1 : res1.err = none) (h2 : res2.err = none) :
    compareExec res1 res2 =
      (decide (res1.rowsAffected = res2.rowsAffected), .exec res1, .exec res2) := by
  by_cases h : res1.rowsAffected = res2.rowsAffected <;>
    simp [compareExec, errConsistent, h1, h2, h]

end Basic

/-! ## The warehouse read path -/

section WarehouseFacts

variable {S1 S2 H Value : Type} (Sprint : Value → GoString)

theorem stringsSplit_ne_nil (sep : Char) (s : GoString) : stringsSplit sep s ≠ [] := by
  induction s with
  | nil => simp [stringsSplit]
  | cons c cs ih =>
    unfold stringsSplit
    split
    · simp
    · split <;> simp

/-- The first piece of a split is the text before the first separator. -/
theorem splitFirst_eq_takeWhile (s : GoString) :
    splitFirst s = s.takeWhile (fun c => decide (c ≠ '.')) := by
  induction s with
  | nil => simp [splitFirst, stringsSplit]
  | cons c cs ih =>
    by_cases hc : c = '.'
    · subst hc
      simp [splitFirst, stringsSplit]
    · have hne := stringsSplit_ne_nil '.' cs
      unfold splitFirst at ih ⊢
      unfold stringsSplit
      rw [if_neg hc]
      rcases hs : stringsSplit '.' cs with _ | ⟨p, ps⟩
      · exact absurd hs hne
      · rw [hs] at ih
        simp only at ih
        simp [List.takeWhile_cons, hc, ih]

theorem hiveRow_foldl (desc : List ColDesc) (row : GoString → Option Value)
    (acc : List (Option GoString) × GoString) :
    desc.foldl
        (fun acc d => (acc.1 ++ [(hiveCell Sprint d row).1], acc.2 ++ (hiveCell Sprint d row).2))
        acc =
      (acc.1 ++ desc.map (fun d => (hiveCell Sprint d row).1),
        acc.2 ++ (desc.map (fun d => (hiveCell Sprint d row).2)).flatten) := by
  induction desc generalizing acc with
  | nil => simp
  | cons d ds ih => simp [ih]

/-- The row loop, column by column: the stored cells and the signature of a
row are the cells' stored values and the concatenation of their texts. -/
theorem hiveRow_eq (desc : List ColDesc) (row : GoString → Option Value) :
    hiveRow Sprint desc row =
      (desc.map (fun d => (hiveCell Sprint d row).1),
        (desc.map (fun d => (hiveCell Sprint d row).2)).flatten) := by
  unfold hiveRow
  rw [hiveRow_foldl]
  simp

theorem hiveRows_foldl (desc : List ColDesc) (rows : List (GoString → Option Value))
    (acc : List (List (Option GoString)) × Finset GoString) :
    rows.foldl
        (fun acc row =>
          (acc.1 ++ [(hiveRow Sprint desc row).1], insert (hiveRow Sprint desc row).2 acc.2))
        acc =
      (acc.1 ++ rows.map (fun row => (hiveRow Sprint desc row).1),
        acc.2 ∪ (rows.map (fun row => (hiveRow Sprint desc row).2)).toFinset) := by
  induction rows generalizing acc with
  | nil => simp
  | cons r rs ih =>
    simp only [List.foldl_cons, ih, List.map_cons, List.toFinset_cons]
    refine Prod.ext (by simp) ?_
    ext x
    simp [or_comm, or_left_comm]

/-- The fetch loop, row by row: `allRows` lists the rows' stored cells in
fetch order, `rowSet` is the set of the rows' signatures. -/
theorem hiveRows_eq (desc : List ColDesc) (rows : List (GoString → Option Value)) :
    hiveRows Sprint desc rows =
      (rows.map (fun row => (hiveRow Sprint desc row).1),
        (rows.map (fun row => (hiveRow Sprint desc row).2)).toFinset) := by
  unfold hiveRows
  rw [hiveRows_foldl]
  simp

theorem hiveWorker_of_err (connHive : Hive H Value) (sql : GoString) (h : H) (wg : WaitGroup)
    (e : GoError) (he : (connHive.Exec sql h).1.Err = some e) :
    hiveWorker Sprint connHive sql h wg = (⟨none, some e⟩, wg, (connHive.Exec sql h).2) := by
  unfold hiveWorker
  rcases hx : connHive.Exec sql h with ⟨cursor, h'⟩
  rw [hx] at he
  simp only at he
  simp [he]

theorem hiveWorker_of_ok (connHive : Hive H Value) (sql : GoString) (h : H) (wg : WaitGroup)
    (he : (connHive.Exec sql h).1.Err = none) :
    hiveWorker Sprint connHive sql h wg =
      (⟨some (hiveResult Sprint (connHive.Exec sql h).1), none⟩, wg.Done,
        (connHive.Exec sql h).2) := by
  unfold hiveWorker
  rcases hx : connHive.Exec sql h with ⟨cursor, h'⟩
  rw [hx] at he
  simp only at he
  simp [he]

/-- The read path of `ByHiveSql` when the cursor reports no error. -/
theorem ByHiveSql_read_of_ok (isExec : GoString → Bool) (sql : GoString) (db1 : Db S1)
    (db2 : Db S2) (connHive : Hive H Value) (nonOrder : Bool) (s1 : S1) (s2 : S2) (h : H)
    (hq : isExec sql = false) (he : (connHive.Exec sql h).1.Err = none) :
    ByHiveSql Sprint isExec sql db1 db2 connHive nonOrder s1 s2 h =
      (compareQuery nonOrder (newQueryDsnRes db1 sql s1).1
          ⟨some (hiveResult Sprint (connHive.Exec sql h).1), none⟩,
        (newQueryDsnRes db1 sql s1).2, s2, (connHive.Exec sql h).2) := by
  simp [ByHiveSql, hq, hiveWorker_of_ok Sprint connHive sql h _ he, wait_after_two_done]

/-- The read path of `ByHiveSql` when the cursor reports an error. -/
theorem ByHiveSql_read_of_err (isExec : GoString → Bool) (sql : GoString) (db1 : Db S1)
    (db2 : Db S2) (connHive : Hive H Value) (nonOrder : Bool) (s1 : S1) (s2 : S2) (h : H)
    (e : GoError) (hq : isExec sql = false) (he : (connHive.Exec sql h).1.Err = some e) :
    ByHiveSql Sprint isExec sql db1 db2 connHive nonOrder s1 s2 h =
      (.error Halt.deadlock, (newQueryDsnRes db1 sql s1).2, s2, (connHive.Exec sql h).2) := by
  simp [ByHiveSql, hq, hiveWorker_of_err Sprint connHive sql h _ e he, wait_after_one_done]

end WarehouseFacts

/-! ## The comparator -/

section Comparator

variable {S1 S2 H Value : Type}

/-- On `ByExec` when exactly one side fails: inconsistent, whatever the counts. -/
theorem ByExec_one_sided_failure (sql : GoString) (db1 : Db S1) (db2 : Db S2) (s1 : S1) (s2 : S2)
    (h : ((db1.exec sql s1).1.2 = none) ≠ ((db2.exec sql s2).1.2 = none)) :
    (ByExec sql db1 db2 s1 s2).1 =
      .ok (false, .exec (newExecDsnRes db1 sql s1).1, .exec (newExecDsnRes db2 sql s2).1) := by
  rw [ByExec_eq]
  have hc : errConsistent (newExecDsnRes db1 sql s1).1.err (newExecDsnRes db2 sql s2).1.err
      = false := by
    rw [Bool.eq_false_iff, Ne, errConsistent_iff, newExecDsnRes_fst, newExecDsnRes_fst]
    intro hiff
    exact h (propext hiff)
  rw [compareExec_of_not_errConsistent _ _ hc]

/-- On `ByQuery` when exactly one side fails: inconsistent, whatever the rows and
the mode. -/
theorem ByQuery_one_sided_failure (sql : GoString) (db1 : Db S1) (db2 : Db S2) (nonOrder : Bool)
    (s1 : S1) (s2 : S2)
    (h : ((newQueryDsnRes db1 sql s1).1.err = none) ≠ ((newQueryDsnRes db2 sql s2).1.err = none)) :
    (ByQuery sql db1 db2 nonOrder s1 s2).1 =
      .ok (false, .query (newQueryDsnRes db1 sql s1).1, .query (newQueryDsnRes db2 sql s2).1) := by
  rw [ByQuery_eq]
  have hc : errConsistent (newQueryDsnRes db1 sql s1).1.err (newQueryDsnRes db2 sql s2).1.err
      = false := by
    rw [Bool.eq_false_iff, Ne, errConsistent_iff]
    intro hiff
    exact h (propext hiff)
  simp only [compareQuery_of_not_errConsistent _ _ _ hc]

/-- The read path of `ByHiveSql` when the relational side fails and the
cursor reports no error: inconsistent. -/
theorem ByHiveSql_sideA_failure (Sprint : Value → GoString) (isExec : GoString → Bool)
    (sql : GoString) (db1 : Db S1) (db2 : Db S2) (connHive : Hive H Value) (nonOrder : Bool)
    (s1 : S1) (s2 : S2) (h : H) (e : GoError) (hq : isExec sql = false)
    (h1 : (db1.query sql s1).1 = .error e) (he : (connHive.Exec sql h).1.Err = none) :
    (ByHiveSql Sprint isExec sql db1 db2 connHive nonOrder s1 s2 h).1 =
      .ok (false, .query ⟨none, some e⟩,
        .query ⟨some (hiveResult Sprint (connHive.Exec sql h).1), none⟩) := by
  rw [ByHiveSql_read_of_ok Sprint isExec sql db1 db2 connHive nonOrder s1 s2 h hq he,
    newQueryDsnRes_error db1 sql s1 e h1]
  simp [compareQuery, errConsistent]

/-- On `ByExec` when both sides fail: consistent, whatever the failures and the
counts. -/
theorem ByExec_both_failed (sql : GoString) (db1 : Db S1) (db2 : Db S2) (s1 : S1) (s2 : S2)
    (e1 e2 : GoError) (h1 : (db1.exec sql s1).1.2 = some e1)
    (h2 : (db2.exec sql s2).1.2 = some e2) :
    (ByExec sql db1 db2 s1 s2).1 =
      .ok (true, .exec (newExecDsnRes db1 sql s1).1, .exec (newExecDsnRes db2 sql s2).1) := by
  rw [ByExec_eq]
  have k1 : (newExecDsnRes db1 sql s1).1.err = some e1 := by rw [newExecDsnRes_fst]; exact h1
  have k2 : (newExecDsnRes db2 sql s2).1.err = some e2 := by rw [newExecDsnRes_fst]; exact h2
  rw [compareExec_of_both_failed _ _ e1 e2 k1 k2]

/-- On `ByQuery` when both sides fail: consistent, whatever the failures and the
mode. -/
theorem ByQuery_both_failed (sql : GoString) (db1 : Db S1) (db2 : Db S2) (nonOrder : Bool)
    (s1 : S1) (s2 : S2) (e1 e2 : GoError) (h1 : (db1.query sql s1).1 = .error e1)
    (h2 : (db2.query sql s2).1 = .error e2) :
    (ByQuery sql db1 db2 nonOrder s1 s2).1 =
      .ok (true, .query ⟨none, some e1⟩, .query ⟨none, some e2⟩) := by
  rw [ByQuery_eq, newQueryDsnRes_error db1 sql s1 e1 h1, newQueryDsnRes_error db2 sql s2 e2 h2]
  exact compareQuery_of_both_failed nonOrder ⟨none, some e1⟩ ⟨none, some e2⟩ e1 e2 rfl rfl

/-- C1, at the failing input.  Read statement, relational side succeeds, the
warehouse cursor reports an error: exactly one side carries a failure, and
`ByHiveSql` gives no verdict at all, because its wait on the two workers is
never released. -/
theorem ByHiveSql_sideB_failure_gives_no_verdict (nonOrder : Bool) :
    (ByHiveSql id allReads selectOne (constDb (.ok emptyResult) 0 none)
        (constDb (.ok emptyResult) 0 none) (constHive (failedCursor syntaxError)) nonOrder
        () () ()).1 = .error Halt.deadlock := by
  cases nonOrder <;> rfl

/-- C2, at the failing input.  Read statement, the relational side fails and
the warehouse cursor reports an error: both sides carry a failure, and
`ByHiveSql` gives no verdict at all, because its wait on the two workers is
never released. -/
theorem ByHiveSql_both_failed_gives_no_verdict (nonOrder : Bool) :
    (ByHiveSql id allReads selectOne (constDb (.error tableMissing) 0 (some tableMissing))
        (constDb (.ok emptyResult) 0 none) (constHive (failedCursor syntaxError)) nonOrder
        () () ()).1 = .error Halt.deadlock := by
  cases nonOrder <;> rfl

/-- C3.  A write statement whose two executions both succeed: `ByExec`
returns, its verdict is consistent exactly when the two affected-row counts
are equal, and the outcomes returned are side A's and side B's as the
executions gave them, in that order; `BySql` and `ByHiveSql` hand a
statement classified as a write to `ByExec`. -/
theorem ByExec_both_succeed (sql : GoString) (db1 : Db S1) (db2 : Db S2) (s1 : S1) (s2 : S2)
    (h1 : (db1.exec sql s1).1.2 = none) (h2 : (db2.exec sql s2).1.2 = none) :
    (∃ consistent : Bool,
      (ByExec sql db1 db2 s1 s2).1 =
          .ok (consistent, .exec ⟨(db1.exec sql s1).1.1, none⟩, .exec ⟨(db2.exec sql s2).1.1, none⟩) ∧
        (consistent = true ↔ (db1.exec sql s1).1.1 = (db2.exec sql s2).1.1)) ∧
      (ByExec sql db1 db2 s1 s2).2 = ((db1.exec sql s1).2, (db2.exec sql s2).2) ∧
      (∀ (isExec : GoString → Bool) (nonOrder : Bool), isExec sql = true →
        BySql isExec sql db1 db2 nonOrder s1 s2 = ByExec sql db1 db2 s1 s2) ∧
      (∀ (H Value : Type) (Sprint : Value → GoString) (isExec : GoString → Bool)
        (connHive : Hive H Value) (nonOrder : Bool) (h : H), isExec sql = true →
        (ByHiveSql Sprint isExec sql db1 db2 connHive nonOrder s1 s2 h).1 =
          (ByExec sql db1 db2 s1 s2).1) := by
  have k1 : (newExecDsnRes db1 sql s1).1 = ⟨(db1.exec sql s1).1.1, none⟩ := by
    rw [newExecDsnRes_fst, h1]
  have k2 : (newExecDsnRes db2 sql s2).1 = ⟨(db2.exec sql s2).1.1, none⟩ := by
    rw [newExecDsnRes_fst, h2]
  refine ⟨⟨decide ((db1.exec sql s1).1.1 = (db2.exec sql s2).1.1), ?_, by simp⟩, ?_, ?_, ?_⟩
  · rw [ByExec_eq, k1, k2, compareExec_of_both_ok _ _ rfl rfl]
  · rw [ByExec_eq]
    unfold newExecDsnRes
    rcases db1.exec sql s1 with ⟨⟨r, e⟩, s'⟩
    rcases db2.exec sql s2 with ⟨⟨r2, e2⟩, s2'⟩
    rfl
  · intro isExec nonOrder hx
    simp [BySql, hx]
  · intro H Value Sprint isExec connHive nonOrder h hx
    simp [ByHiveSql, hx]

/-- C3 at two handles that both succeed, with 3 and 4 affected rows. -/
theorem ByExec_both_succeed_witness :
    ((constDb (.ok emptyResult) 3 none).exec selectOne ()).1.2 = none ∧
      ((constDb (.ok emptyResult) 4 none).exec selectOne ()).1.2 = none ∧
      ∃ consistent : Bool,
        (ByExec selectOne (constDb (.ok emptyResult) 3 none) (constDb (.ok emptyResult) 4 none)
            () ()).1 = .ok (consistent, .exec ⟨3, none⟩, .exec ⟨4, none⟩) ∧
          (consistent = true ↔ (3 : Int) = 4) :=
  ⟨rfl, rfl, (ByExec_both_succeed selectOne (constDb (.ok emptyResult) 3 none)
    (constDb (.ok emptyResult) 4 none) () () rfl rfl).1⟩

/-- C4.  A read statement whose two executions both succeed.  Side A is the
relational handle `db1`, whose read gives `r1`.  For `ByQuery`, with any
second handle whose read succeeds with `r2`, and for the read path of
`ByHiveSql`, with any cursor that reports no error and whatever the second
relational handle would do (it is not used), a verdict is returned, and it
is consistent exactly when, in unordered mode, the two signature sets are
equal and, in ordered mode, the two row lists are equal (same rows, same
cells, NULL-ness included, position by position).  The mode alone selects
the comparison, and replacing the headers of either result changes
nothing. -/
theorem read_both_succeed (Sprint : Value → GoString) (isExec : GoString → Bool)
    (sql : GoString) (db1 : Db S1) (connHive : Hive H Value) (nonOrder : Bool)
    (s1 : S1) (h : H) (r1 : SqlResult) (h1 : (db1.query sql s1).1 = .ok r1) :
    (∀ (db2 : Db S2) (s2 : S2) (r2 : SqlResult), (db2.query sql s2).1 = .ok r2 →
      ∃ consistent : Bool,
        (ByQuery sql db1 db2 nonOrder s1 s2).1 =
            .ok (consistent, .query ⟨some r1, none⟩, .query ⟨some r2, none⟩) ∧
          (consistent = true ↔
            if nonOrder = true then r1.Rows = r2.Rows else r1.Data = r2.Data)) ∧
      (isExec sql = false → (connHive.Exec sql h).1.Err = none →
        ∀ (db2 : Db S2) (s2 : S2),
          ∃ consistent : Bool,
            (ByHiveSql Sprint isExec sql db1 db2 connHive nonOrder s1 s2 h).1 =
                .ok (consistent, .query ⟨some r1, none⟩,
                  .query ⟨some (hiveResult Sprint (connHive.Exec sql h).1), none⟩) ∧
              (consistent = true ↔
                if nonOrder = true then
                  r1.Rows = (hiveResult Sprint (connHive.Exec sql h).1).Rows
                else r1.Data = (hiveResult Sprint (connHive.Exec sql h).1).Data)) ∧
      (∀ (r2 : SqlResult) (hdr1 hdr2 : List GoString),
        (compareQuery nonOrder ⟨some { r1 with Header := hdr1 }, none⟩
            ⟨some { r2 with Header := hdr2 }, none⟩).map Prod.fst =
          (compareQuery nonOrder ⟨some r1, none⟩ ⟨some r2, none⟩).map Prod.fst) ∧
      (∀ r2 : SqlResult, r1.Data = r2.Data ↔
        r1.Data.length = r2.Data.length ∧ ∀ i : Nat, r1.Data[i]? = r2.Data[i]?) := by
  have key : ∀ a b : SqlResult,
      ((if nonOrder = true then a.NonOrderEqualTo b else a.BytesEqualTo b) = true ↔
        if nonOrder = true then a.Rows = b.Rows else a.Data = b.Data) := by
    intro a b
    cases nonOrder
    · simpa using BytesEqualTo_iff a b
    · simpa using NonOrderEqualTo_iff a b
  refine ⟨?_, ?_, ?_, ?_⟩
  · intro db2 s2 r2 h2
    refine ⟨_, ?_, key r1 r2⟩
    rw [ByQuery_eq, newQueryDsnRes_ok db1 sql s1 r1 h1, newQueryDsnRes_ok db2 sql s2 r2 h2,
      compareQuery_of_both_ok]
  · intro hq he db2 s2
    refine ⟨_, ?_, key r1 _⟩
    rw [ByHiveSql_read_of_ok Sprint isExec sql db1 db2 connHive nonOrder s1 s2 h hq he,
      newQueryDsnRes_ok db1 sql s1 r1 h1, compareQuery_of_both_ok]
  · intro r2 hdr1 hdr2
    rw [compareQuery_of_both_ok, compareQuery_of_both_ok]
    rfl
  · intro r2
    constructor
    · intro hd
      rw [hd]
      exact ⟨rfl, fun _ => rfl⟩
    · intro hd
      exact List.ext_getElem? hd.2

/-- C4 in ordered mode, side A holding the single row `1`: `ByQuery` against
the same row under another header, and `ByHiveSql` against a cursor over
the same row, the second relational handle being one whose every read
fails. -/
theorem read_both_succeed_witness :
    ((constDb (.ok (oneCellResult ['1'])) 0 none).query selectOne ()).1 =
        .ok (oneCellResult ['1']) ∧
      (∃ consistent : Bool,
        (ByQuery selectOne (constDb (.ok (oneCellResult ['1'])) 0 none)
            (constDb (.ok { oneCellResult ['1'] with Header := [['d']] }) 0 none) false
            () ()).1 =
            .ok (consistent, .query ⟨some (oneCellResult ['1']), none⟩,
              .query ⟨some { oneCellResult ['1'] with Header := [['d']] }, none⟩) ∧
          (consistent = true ↔
            if false = true then
              (oneCellResult ['1']).Rows =
                ({ oneCellResult ['1'] with Header := [['d']] } : SqlResult).Rows
            else
              (oneCellResult ['1']).Data =
                ({ oneCellResult ['1'] with Header := [['d']] } : SqlResult).Data)) ∧
      (∃ consistent : Bool,
        (ByHiveSql id allReads selectOne (constDb (.ok (oneCellResult ['1'])) 0 none)
            (constDb (.error tableMissing) 0 (some tableMissing))
            (constHive (cursorOf [strColumn] [textRow ['1']])) false () () ()).1 =
            .ok (consistent, .query ⟨some (oneCellResult ['1']), none⟩,
              .query ⟨some (hiveResult id
                ((constHive (cursorOf [strColumn] [textRow ['1']])).Exec selectOne ()).1),
                none⟩) ∧
          (consistent = true ↔
            if false = true then
              (oneCellResult ['1']).Rows =
                (hiveResult id
                  ((constHive (cursorOf [strColumn] [textRow ['1']])).Exec selectOne ()).1).Rows
            else
              (oneCellResult ['1']).Data =
                (hiveResult id
                  ((constHive (cursorOf [strColumn] [textRow ['1']])).Exec selectOne ()).1).Data)) :=
  ⟨rfl,
    (read_both_succeed id allReads selectOne (constDb (.ok (oneCellResult ['1'])) 0 none)
      (constHive (cursorOf [strColumn] [textRow ['1']])) false () ()
      (oneCellResult ['1']) rfl).1
      (constDb (.ok { oneCellResult ['1'] with Header := [['d']] }) 0 none) ()
      { oneCellResult ['1'] with Header := [['d']] } rfl,
    (read_both_succeed id allReads selectOne (constDb (.ok (oneCellResult ['1'])) 0 none)
      (constHive (cursorOf [strColumn] [textRow ['1']])) false () ()
      (oneCellResult ['1']) rfl).2.1 rfl rfl
      (constDb (.error tableMissing) 0 (some tableMissing)) ()⟩

/-- The read path of `ByHiveSql` in the case of the witness above: side A and
the cursor hold the same row, the verdict is consistent in both modes, and
the second relational handle fails on every read. -/
theorem ByHiveSql_read_ignores_db2 (nonOrder : Bool) :
    ∃ r : DsnRes × DsnRes,
      (ByHiveSql id allReads selectOne (constDb (.ok (oneCellResult ['1'])) 0 none)
        (constDb (.error tableMissing) 0 (some tableMissing))
        (constHive (cursorOf [strColumn] [textRow ['1']])) nonOrder () () ()).1 =
        .ok (true, r) := by
  cases nonOrder
  · exact ⟨_, rfl⟩
  · refine ⟨(.query ⟨some (oneCellResult ['1']), none⟩,
      .query ⟨some (hiveResult id (cursorOf [strColumn] [textRow ['1']])), none⟩), ?_⟩
    rw [ByHiveSql_read_of_ok id allReads selectOne _ _ _ true () () () rfl rfl,
      newQueryDsnRes_ok _ selectOne () (oneCellResult ['1']) rfl, compareQuery_of_both_ok]
    have hrows : (oneCellResult ['1']).NonOrderEqualTo
        (hiveResult id ((constHive (cursorOf [strColumn] [textRow ['1']])).Exec selectOne ()).1)
        = true := by
      rw [NonOrderEqualTo_iff]
      decide
    simp only [hrows, if_true]
    rfl

/-- C7, on the cursor-error path.  When the cursor reports an error after
`Exec`, the second worker of `ByHiveSql` captures it as side B's outcome
(no result, that error) but leaves the wait group as it found it: it never
signals.  With the first worker's one signal the counter stands at 1, the
wait is not released, and `ByHiveSql` returns nothing. -/
theorem hiveWorker_cursor_error_never_signals (Sprint : Value → GoString)
    (isExec : GoString → Bool) (sql : GoString) (db1 : Db S1) (db2 : Db S2)
    (connHive : Hive H Value) (nonOrder : Bool) (s1 : S1) (s2 : S2) (h : H) (e : GoError)
    (hq : isExec sql = false) (he : (connHive.Exec sql h).1.Err = some e) :
    (∀ wg : WaitGroup,
      (hiveWorker Sprint connHive sql h wg).1 = ⟨none, some e⟩ ∧
        (hiveWorker Sprint connHive sql h wg).2.1 = wg) ∧
      ((hiveWorker Sprint connHive sql h ((WaitGroup.mk 0).Add 2).Done).2.1).counter = 1 ∧
      ((hiveWorker Sprint connHive sql h ((WaitGroup.mk 0).Add 2).Done).2.1).Wait = false ∧
      (ByHiveSql Sprint isExec sql db1 db2 connHive nonOrder s1 s2 h).1 = .error Halt.deadlock := by
  refine ⟨fun wg => ?_, ?_, ?_, ?_⟩
  · rw [hiveWorker_of_err Sprint connHive sql h wg e he]
    exact ⟨rfl, rfl⟩
  · rw [hiveWorker_of_err Sprint connHive sql h _ e he]
    rfl
  · rw [hiveWorker_of_err Sprint connHive sql h _ e he]
    rfl
  · rw [ByHiveSql_read_of_err Sprint isExec sql db1 db2 connHive nonOrder s1 s2 h e hq he]

/-- C7 at a cursor in error, the relational side having succeeded. -/
theorem hiveWorker_cursor_error_never_signals_witness :
    allReads selectOne = false ∧
      ((constHive (failedCursor syntaxError)).Exec selectOne ()).1.Err = some syntaxError ∧
      (ByHiveSql id allReads selectOne (constDb (.ok emptyResult) 0 none)
        (constDb (.ok emptyResult) 0 none) (constHive (failedCursor syntaxError)) true
        () () ()).1 = .error Halt.deadlock :=
  ⟨rfl, rfl, (hiveWorker_cursor_error_never_signals id allReads selectOne
    (constDb (.ok emptyResult) 0 none) (constDb (.ok emptyResult) 0 none)
    (constHive (failedCursor syntaxError)) true () () () syntaxError rfl rfl).2.2.2⟩

/-- On the path without a cursor error each worker signals once and the wait
is released. -/
theorem hiveWorker_ok_signals_once (Sprint : Value → GoString) (sql : GoString)
    (connHive : Hive H Value) (h : H) (wg : WaitGroup)
    (he : (connHive.Exec sql h).1.Err = none) :
    (hiveWorker Sprint connHive sql h wg).2.1 = wg.Done := by
  rw [hiveWorker_of_ok Sprint connHive sql h wg he]

end Comparator

/-! ## The batch driver -/

section Batch

variable {S1 S2 V : Type}

/-- On `ByQuery` on two handles always gives a verdict. -/
theorem ByQuery_returns (sql : GoString) (db1 : Db S1) (db2 : Db S2) (nonOrder : Bool)
    (s1 : S1) (s2 : S2) : ∃ v, (ByQuery sql db1 db2 nonOrder s1 s2).1 = .ok v := by
  rw [ByQuery_eq]
  rcases newQueryDsnRes_shape db1 sql s1 with ⟨r1, h1⟩ | ⟨e1, h1⟩ <;>
    rcases newQueryDsnRes_shape db2 sql s2 with ⟨r2, h2⟩ | ⟨e2, h2⟩ <;>
    simp only [h1, h2]
  · exact ⟨_, compareQuery_of_both_ok nonOrder r1 r2⟩
  · exact ⟨_, compareQuery_of_not_errConsistent nonOrder _ _ rfl⟩
  · exact ⟨_, compareQuery_of_not_errConsistent nonOrder _ _ rfl⟩
  · exact ⟨_, compareQuery_of_both_failed nonOrder ⟨none, some e1⟩ ⟨none, some e2⟩ e1 e2 rfl rfl⟩

/-- On `BySql` on two handles always gives a verdict. -/
theorem BySql_returns (isExec : GoString → Bool) (sql : GoString) (db1 : Db S1) (db2 : Db S2)
    (nonOrder : Bool) (s1 : S1) (s2 : S2) :
    ∃ v, (BySql isExec sql db1 db2 nonOrder s1 s2).1 = .ok v := by
  unfold BySql
  split
  · exact ⟨_, by rw [ByExec_eq]⟩
  · exact ByQuery_returns sql db1 db2 nonOrder s1 s2

/-- One turn of the loop of `ByDb` on a non-empty statement. -/
theorem ByDb_cons_cases (isExec : GoString → Bool) (db1 : Db S1) (db2 : Db S2) (nonOrder : Bool)
    (visitor : Visitor V) (sql : GoString) (sqls : List GoString) (w : World S1 S2 V)
    (hs : sql ≠ []) :
    (∃ r1 r2 s1' s2',
      BySql isExec sql db1 db2 nonOrder w.s1 w.s2 = (.ok (true, r1, r2), s1', s2') ∧
        ByDb isExec db1 db2 nonOrder visitor (sql :: sqls) w =
          ((ByDb isExec db1 db2 nonOrder visitor sqls ⟨s1', s2', w.v⟩).1,
            Event.run sql true r1 r2 ::
              (ByDb isExec db1 db2 nonOrder visitor sqls ⟨s1', s2', w.v⟩).2.1,
            (ByDb isExec db1 db2 nonOrder visitor sqls ⟨s1', s2', w.v⟩).2.2)) ∨
      (∃ r1 r2 s1' s2' v',
        BySql isExec sql db1 db2 nonOrder w.s1 w.s2 = (.ok (false, r1, r2), s1', s2') ∧
          visitor sql r1 r2 w.v = (none, v') ∧
          ByDb isExec db1 db2 nonOrder visitor (sql :: sqls) w =
            ((ByDb isExec db1 db2 nonOrder visitor sqls ⟨s1', s2', v'⟩).1,
              Event.run sql false r1 r2 :: Event.visit sql r1 r2 none ::
                (ByDb isExec db1 db2 nonOrder visitor sqls ⟨s1', s2', v'⟩).2.1,
              (ByDb isExec db1 db2 nonOrder visitor sqls ⟨s1', s2', v'⟩).2.2)) ∨
      (∃ r1 r2 s1' s2' e v',
        BySql isExec sql db1 db2 nonOrder w.s1 w.s2 = (.ok (false, r1, r2), s1', s2') ∧
          visitor sql r1 r2 w.v = (some e, v') ∧
          ByDb isExec db1 db2 nonOrder visitor (sql :: sqls) w =
            (.ok (some e), [Event.run sql false r1 r2, Event.visit sql r1 r2 (some e)],
              ⟨s1', s2', v'⟩)) := by
  obtain ⟨v, hv⟩ := BySql_returns isExec sql db1 db2 nonOrder w.s1 w.s2
  rcases hb : BySql isExec sql db1 db2 nonOrder w.s1 w.s2 with ⟨res, s1', s2'⟩
  rw [hb] at hv
  simp only at hv
  subst hv
  obtain ⟨consistent, r1, r2⟩ := v
  cases consistent
  · rcases hvis : visitor sql r1 r2 w.v with ⟨err, v'⟩
    cases err with
    | none =>
      refine Or.inr (Or.inl ⟨r1, r2, s1', s2', v', rfl, hvis, ?_⟩)
      simp [ByDb, hs, hb, hvis]
    | some e =>
      refine Or.inr (Or.inr ⟨r1, r2, s1', s2', e, v', rfl, hvis, ?_⟩)
      simp [ByDb, hs, hb, hvis]
  · refine Or.inl ⟨r1, r2, s1', s2', rfl, ?_⟩
    simp [ByDb, hs, hb]

theorem ByDb_cons_nil (isExec : GoString → Bool) (db1 : Db S1) (db2 : Db S2) (nonOrder : Bool)
    (visitor : Visitor V) (sqls : List GoString) (w : World S1 S2 V) :
    ByDb isExec db1 db2 nonOrder visitor ([] :: sqls) w =
      ByDb isExec db1 db2 nonOrder visitor sqls w := by
  simp [ByDb]

/-- Every batch has one of the shapes of `Shape`. -/
theorem ByDb_shape (isExec : GoString → Bool) (db1 : Db S1) (db2 : Db S2) (nonOrder : Bool)
    (visitor : Visitor V) (sqls : List GoString) (w : World S1 S2 V) :
    Shape sqls (ByDb isExec db1 db2 nonOrder visitor sqls w).1
      (ByDb isExec db1 db2 nonOrder visitor sqls w).2.1 := by
  induction sqls generalizing w with
  | nil => exact Shape.done
  | cons sql sqls ih =>
    by_cases hs : sql = []
    · subst hs
      rw [ByDb_cons_nil]
      exact Shape.skip (ih w)
    · rcases ByDb_cons_cases isExec db1 db2 nonOrder visitor sql sqls w hs with
        ⟨r1, r2, s1', s2', -, h⟩ | ⟨r1, r2, s1', s2', v', -, -, h⟩ |
        ⟨r1, r2, s1', s2', e, v', -, -, h⟩
      · rw [h]
        exact Shape.consistent r1 r2 hs (ih _)
      · rw [h]
        exact Shape.accepted r1 r2 hs (ih _)
      · rw [h]
        exact Shape.rejected r1 r2 e hs

/-- The record of every batch is faithful to `BySql` and to the visitor, and
leads from the initial state to the final state. -/
theorem ByDb_faithful (isExec : GoString → Bool) (db1 : Db S1) (db2 : Db S2) (nonOrder : Bool)
    (visitor : Visitor V) (sqls : List GoString) (w : World S1 S2 V) :
    Faithful isExec db1 db2 nonOrder visitor w
      (ByDb isExec db1 db2 nonOrder visitor sqls w).2.1
      (ByDb isExec db1 db2 nonOrder visitor sqls w).2.2 := by
  induction sqls generalizing w with
  | nil => exact Faithful.done w
  | cons sql sqls ih =>
    by_cases hs : sql = []
    · subst hs
      rw [ByDb_cons_nil]
      exact ih w
    · rcases ByDb_cons_cases isExec db1 db2 nonOrder visitor sql sqls w hs with
        ⟨r1, r2, s1', s2', hb, h⟩ | ⟨r1, r2, s1', s2', v', hb, hv, h⟩ |
        ⟨r1, r2, s1', s2', e, v', hb, hv, h⟩
      · rw [h]
        exact Faithful.consistent hb (ih _)
      · rw [h]
        exact Faithful.reported hb hv (ih _)
      · rw [h]
        exact Faithful.reported hb hv (Faithful.done _)

/-- The final state of a faithful record is the replay of the record. -/
theorem Faithful.world_eq {isExec : GoString → Bool} {db1 : Db S1} {db2 : Db S2}
    {nonOrder : Bool} {visitor : Visitor V} {w w' : World S1 S2 V} {t : List Event}
    (hf : Faithful isExec db1 db2 nonOrder visitor w t w') :
    w' = replay isExec db1 db2 nonOrder visitor w t := by
  induction hf with
  | done w => rfl
  | consistent hb _ ih =>
    rw [ih]
    simp only [replay, hb]
  | reported hb hv _ ih =>
    rw [ih]
    simp only [replay, hb, hv]

/-- In a faithful record every run carries what `BySql` returns at the state
the record has reached. -/
theorem Faithful.run_is_BySql {isExec : GoString → Bool} {db1 : Db S1} {db2 : Db S2}
    {nonOrder : Bool} {visitor : Visitor V} {w w' : World S1 S2 V} {t : List Event}
    (hf : Faithful isExec db1 db2 nonOrder visitor w t w') :
    ∀ (pre post : List Event) (sql : GoString) (c : Bool) (r1 r2 : DsnRes),
      t = pre ++ Event.run sql c r1 r2 :: post →
        (BySql isExec sql db1 db2 nonOrder
          (replay isExec db1 db2 nonOrder visitor w pre).s1
          (replay isExec db1 db2 nonOrder visitor w pre).s2).1 = .ok (c, r1, r2) := by
  induction hf with
  | done w =>
    intro pre post sql c r1 r2 h
    simp at h
  | consistent hb _ ih =>
    intro pre post sql c r1 r2 h
    cases pre with
    | nil =>
      simp only [List.nil_append, List.cons.injEq, Event.run.injEq] at h
      obtain ⟨⟨h1, h2, h3, h4⟩, -⟩ := h
      subst h1 h2 h3 h4
      simp only [replay, hb]
    | cons x pre =>
      simp only [List.cons_append, List.cons.injEq] at h
      obtain ⟨hx, ht⟩ := h
      subst hx
      simp only [replay, hb]
      exact ih pre post sql c r1 r2 ht
  | reported hb hv _ ih =>
    intro pre post sql c r1 r2 h
    cases pre with
    | nil =>
      simp only [List.nil_append, List.cons.injEq, Event.run.injEq] at h
      obtain ⟨⟨h1, h2, h3, h4⟩, -⟩ := h
      subst h1 h2 h3 h4
      simp only [replay, hb]
    | cons x pre =>
      cases pre with
      | nil => simp at h
      | cons y pre =>
        simp only [List.cons_append, List.cons.injEq] at h
        obtain ⟨hx, hy, ht⟩ := h
        subst hx hy
        simp only [replay, hb, hv]
        exact ih pre post sql c r1 r2 ht

/-- In a faithful record every call of the visitor carries the error that
`visitor` returns at the state the record has reached. -/
theorem Faithful.visit_is_visitor {isExec : GoString → Bool} {db1 : Db S1} {db2 : Db S2}
    {nonOrder : Bool} {visitor : Visitor V} {w w' : World S1 S2 V} {t : List Event}
    (hf : Faithful isExec db1 db2 nonOrder visitor w t w') :
    ∀ (pre post : List Event) (sql : GoString) (r1 r2 : DsnRes) (err : Option GoError),
      t = pre ++ Event.visit sql r1 r2 err :: post →
        (visitor sql r1 r2 (replay isExec db1 db2 nonOrder visitor w pre).v).1 = err := by
  induction hf with
  | done w =>
    intro pre post sql r1 r2 err h
    simp at h
  | consistent hb _ ih =>
    intro pre post sql r1 r2 err h
    cases pre with
    | nil => simp at h
    | cons x pre =>
      simp only [List.cons_append, List.cons.injEq] at h
      obtain ⟨hx, ht⟩ := h
      subst hx
      simp only [replay, hb]
      exact ih pre post sql r1 r2 err ht
  | reported hb hv _ ih =>
    intro pre post sql r1 r2 err h
    cases pre with
    | nil => simp at h
    | cons x pre =>
      cases pre with
      | nil =>
        simp only [List.cons_append, List.nil_append, List.cons.injEq, Event.visit.injEq] at h
        obtain ⟨hx, ⟨h1, h2, h3, h4⟩, -⟩ := h
        subst hx h1 h2 h3 h4
        simp only [replay, hv]
      | cons y pre =>
        simp only [List.cons_append, List.cons.injEq] at h
        obtain ⟨hx, hy, ht⟩ := h
        subst hx hy
        simp only [replay, hb, hv]
        exact ih pre post sql r1 r2 err ht

/-- Empty statements do not matter to a batch. -/
theorem ByDb_filter (isExec : GoString → Bool) (db1 : Db S1) (db2 : Db S2) (nonOrder : Bool)
    (visitor : Visitor V) (sqls : List GoString) (w : World S1 S2 V) :
    ByDb isExec db1 db2 nonOrder visitor (sqls.filter (fun sql => decide (sql ≠ []))) w =
      ByDb isExec db1 db2 nonOrder visitor sqls w := by
  induction sqls generalizing w with
  | nil => rfl
  | cons sql sqls ih =>
    by_cases hs : sql = []
    · subst hs
      rw [List.filter_cons_of_neg (by simp), ih]
      simp [ByDb]
    · rw [List.filter_cons_of_pos (by simpa using hs)]
      unfold ByDb
      simp only [hs, if_false, ih]

/-! ### What a shape says about the record -/

theorem Shape.runs_initial {sqls : List GoString} {r : Except Halt (Option GoError)}
    {t : List Event} (hsh : Shape sqls r t) :
    t.filterMap Event.runSql <+: sqls.filter (fun sql => decide (sql ≠ [])) := by
  induction hsh with
  | done => simp
  | skip _ ih => simpa using ih
  | consistent r1 r2 hs _ ih =>
    rw [List.filter_cons_of_pos (by simpa using hs)]
    simpa [Event.runSql] using ih
  | accepted r1 r2 hs _ ih =>
    rw [List.filter_cons_of_pos (by simpa using hs)]
    simpa [Event.runSql] using ih
  | rejected r1 r2 e hs =>
    rw [List.filter_cons_of_pos (by simpa using hs)]
    simp [Event.runSql]

theorem Shape.runs_nonempty {sqls : List GoString} {r : Except Halt (Option GoError)}
    {t : List Event} (hsh : Shape sqls r t) :
    ∀ ev ∈ t, ev.runSql ≠ some [] ∧ ∀ r1 r2 : DsnRes, ev.visitCall ≠ some ([], r1, r2) := by
  have run_ok : ∀ (sql : GoString) (c : Bool) (a b : DsnRes), sql ≠ [] →
      (Event.run sql c a b).runSql ≠ some [] ∧
        ∀ r1 r2 : DsnRes, (Event.run sql c a b).visitCall ≠ some ([], r1, r2) := by
    intro sql c a b hs
    refine ⟨?_, ?_⟩
    · intro h
      exact hs (Option.some.inj h)
    · intro r1 r2 h
      cases h
  have visit_ok : ∀ (sql : GoString) (a b : DsnRes) (err : Option GoError), sql ≠ [] →
      (Event.visit sql a b err).runSql ≠ some [] ∧
        ∀ r1 r2 : DsnRes, (Event.visit sql a b err).visitCall ≠ some ([], r1, r2) := by
    intro sql a b err hs
    refine ⟨?_, ?_⟩
    · intro h
      cases h
    · intro r1 r2 h
      exact hs (congrArg Prod.fst (Option.some.inj h))
  induction hsh with
  | done =>
    intro ev hev
    cases hev
  | skip _ ih => exact ih
  | consistent r1 r2 hs _ ih =>
    intro ev hev
    rcases List.mem_cons.1 hev with h | h
    · subst h
      exact run_ok _ _ _ _ hs
    · exact ih ev h
  | accepted r1 r2 hs _ ih =>
    intro ev hev
    rcases List.mem_cons.1 hev with h | h
    · subst h
      exact run_ok _ _ _ _ hs
    · rcases List.mem_cons.1 h with h | h
      · subst h
        exact visit_ok _ _ _ _ hs
      · exact ih ev h
  | rejected r1 r2 e hs =>
    intro ev hev
    rcases List.mem_cons.1 hev with h | h
    · subst h
      exact run_ok _ _ _ _ hs
    · rcases List.mem_cons.1 h with h | h
      · subst h
        exact visit_ok _ _ _ _ hs
      · cases h

theorem Shape.visits_eq {sqls : List GoString} {r : Except Halt (Option GoError)}
    {t : List Event} (hsh : Shape sqls r t) :
    t.filterMap Event.visitCall = t.filterMap Event.inconsistentRun := by
  induction hsh with
  | done => rfl
  | skip _ ih => exact ih
  | consistent r1 r2 hs _ ih => simpa [Event.visitCall, Event.inconsistentRun] using ih
  | accepted r1 r2 hs _ ih => simpa [Event.visitCall, Event.inconsistentRun] using ih
  | rejected r1 r2 e hs => simp [Event.visitCall, Event.inconsistentRun]

theorem Shape.result_eq {sqls : List GoString} {r : Except Halt (Option GoError)}
    {t : List Event} (hsh : Shape sqls r t) :
    r = .ok (t.filterMap Event.visitError).head? := by
  induction hsh with
  | done => rfl
  | skip _ ih => exact ih
  | consistent r1 r2 hs _ ih => simpa [Event.visitError] using ih
  | accepted r1 r2 hs _ ih => simpa [Event.visitError] using ih
  | rejected r1 r2 e hs => simp [Event.visitError]

theorem Shape.visitErrors_length {sqls : List GoString} {r : Except Halt (Option GoError)}
    {t : List Event} (hsh : Shape sqls r t) :
    (t.filterMap Event.visitError).length ≤ 1 := by
  induction hsh with
  | done => simp
  | skip _ ih => exact ih
  | consistent r1 r2 hs _ ih => simpa [Event.visitError] using ih
  | accepted r1 r2 hs _ ih => simpa [Event.visitError] using ih
  | rejected r1 r2 e hs => simp [Event.visitError]

theorem Shape.runs_all {sqls : List GoString} {r : Except Halt (Option GoError)}
    {t : List Event} (hsh : Shape sqls r t) (hr : r = .ok none) :
    t.filterMap Event.runSql = sqls.filter (fun sql => decide (sql ≠ [])) := by
  induction hsh with
  | done => simp
  | skip _ ih => simpa using ih hr
  | consistent r1 r2 hs _ ih =>
    rw [List.filter_cons_of_pos (by simpa using hs)]
    simpa [Event.runSql] using ih hr
  | accepted r1 r2 hs _ ih =>
    rw [List.filter_cons_of_pos (by simpa using hs)]
    simpa [Event.runSql] using ih hr
  | rejected r1 r2 e hs => simp at hr

theorem Shape.error_last {sqls : List GoString} {r : Except Halt (Option GoError)}
    {t : List Event} (hsh : Shape sqls r t) :
    ∀ (pre post : List Event) (sql : GoString) (r1 r2 : DsnRes) (e : GoError),
      t = pre ++ Event.visit sql r1 r2 (some e) :: post → post = [] ∧ r = .ok (some e) := by
  induction hsh with
  | done =>
    intro pre post sql r1 r2 e h
    simp at h
  | skip _ ih => exact ih
  | consistent a b hs _ ih =>
    intro pre post sql r1 r2 e h
    cases pre with
    | nil => simp at h
    | cons x pre =>
      simp only [List.cons_append, List.cons.injEq] at h
      exact ih pre post sql r1 r2 e h.2
  | accepted a b hs _ ih =>
    intro pre post sql r1 r2 e h
    cases pre with
    | nil => simp at h
    | cons x pre =>
      cases pre with
      | nil => simp at h
      | cons y pre =>
        simp only [List.cons_append, List.cons.injEq] at h
        exact ih pre post sql r1 r2 e h.2.2
  | rejected a b err hs =>
    intro pre post sql r1 r2 e h
    cases pre with
    | nil => simp at h
    | cons x pre =>
      cases pre with
      | nil =>
        simp only [List.cons_append, List.nil_append, List.cons.injEq, Event.visit.injEq,
          Option.some.injEq] at h
        obtain ⟨-, ⟨-, -, -, he⟩, hp⟩ := h
        exact ⟨hp.symm, by rw [he]⟩
      | cons y pre => simp at h

theorem Shape.visit_follows_run {sqls : List GoString} {r : Except Halt (Option GoError)}
    {t : List Event} (hsh : Shape sqls r t) :
    ∀ (pre post : List Event) (sql : GoString) (r1 r2 : DsnRes),
      t = pre ++ Event.run sql false r1 r2 :: post →
        ∃ err post', post = Event.visit sql r1 r2 err :: post' := by
  induction hsh with
  | done =>
    intro pre post sql r1 r2 h
    simp at h
  | skip _ ih => exact ih
  | consistent a b hs _ ih =>
    intro pre post sql r1 r2 h
    cases pre with
    | nil => simp at h
    | cons x pre =>
      simp only [List.cons_append, List.cons.injEq] at h
      exact ih pre post sql r1 r2 h.2
  | accepted a b hs _ ih =>
    intro pre post sql r1 r2 h
    cases pre with
    | nil =>
      simp only [List.nil_append, List.cons.injEq, Event.run.injEq] at h
      obtain ⟨⟨h1, -, h2, h3⟩, hp⟩ := h
      subst h1 h2 h3
      exact ⟨none, _, hp.symm⟩
    | cons x pre =>
      cases pre with
      | nil => simp at h
      | cons y pre =>
        simp only [List.cons_append, List.cons.injEq] at h
        exact ih pre post sql r1 r2 h.2.2
  | rejected a b err hs =>
    intro pre post sql r1 r2 h
    cases pre with
    | nil =>
      simp only [List.nil_append, List.cons.injEq, Event.run.injEq] at h
      obtain ⟨⟨h1, -, h2, h3⟩, hp⟩ := h
      subst h1 h2 h3
      exact ⟨some err, _, hp.symm⟩
    | cons x pre =>
      cases pre with
      | nil => simp at h
      | cons y pre => simp at h

theorem Shape.run_precedes_visit {sqls : List GoString} {r : Except Halt (Option GoError)}
    {t : List Event} (hsh : Shape sqls r t) :
    ∀ (pre post : List Event) (sql : GoString) (r1 r2 : DsnRes) (err : Option GoError),
      t = pre ++ Event.visit sql r1 r2 err :: post →
        ∃ pre', pre = pre' ++ [Event.run sql false r1 r2] := by
  induction hsh with
  | done =>
    intro pre post sql r1 r2 err h
    simp at h
  | skip _ ih => exact ih
  | consistent a b hs _ ih =>
    intro pre post sql r1 r2 err h
    cases pre with
    | nil => simp at h
    | cons x pre =>
      simp only [List.cons_append, List.cons.injEq] at h
      obtain ⟨pre', hp⟩ := ih pre post sql r1 r2 err h.2
      exact ⟨x :: pre', by rw [hp]; rfl⟩
  | accepted a b hs _ ih =>
    intro pre post sql r1 r2 err h
    cases pre with
    | nil => simp at h
    | cons x pre =>
      cases pre with
      | nil =>
        simp only [List.cons_append, List.nil_append, List.cons.injEq, Event.visit.injEq] at h
        obtain ⟨hx, ⟨h1, h2, h3, -⟩, -⟩ := h
        subst h1 h2 h3
        exact ⟨[], by rw [← hx]; rfl⟩
      | cons y pre =>
        simp only [List.cons_append, List.cons.injEq] at h
        obtain ⟨pre', hp⟩ := ih pre post sql r1 r2 err h.2.2
        exact ⟨x :: y :: pre', by rw [hp]; rfl⟩
  | rejected a b e hs =>
    intro pre post sql r1 r2 err h
    cases pre with
    | nil => simp at h
    | cons x pre =>
      cases pre with
      | nil =>
        simp only [List.cons_append, List.nil_append, List.cons.injEq, Event.visit.injEq] at h
        obtain ⟨hx, ⟨h1, h2, h3, -⟩, -⟩ := h
        subst h1 h2 h3
        exact ⟨[], by rw [← hx]; rfl⟩
      | cons y pre => simp at h

theorem Event.visitError_eq_some (ev : Event) (e : GoError) :
    ev.visitError = some e ↔ ∃ sql r1 r2, ev = Event.visit sql r1 r2 (some e) := by
  constructor
  · intro h
    cases ev with
    | run sql c a b => cases h
    | halted sql x => cases h
    | visit sql a b err =>
      cases err with
      | none => cases h
      | some e' =>
        have he : e' = e := Option.some.inj h
        subst he
        exact ⟨sql, a, b, rfl⟩
  · rintro ⟨sql, r1, r2, rfl⟩
    rfl

theorem head?_eq_some_of_length_le_one {α : Type} (l : List α) (hl : l.length ≤ 1) (a : α) :
    l.head? = some a ↔ a ∈ l := by
  cases l with
  | nil => simp
  | cons x xs =>
    cases xs with
    | nil => simp [eq_comm]
    | cons y ys => simp at hl

/-- C5.  For every statement list, every pair of handles and every visitor:
the batch on the list is the batch on the list without its empty
statements (same error, same record of runs and visitor calls, same final
state); the statements handed to `BySql` are, in input order, a prefix of
the non-empty statements, and all of them when no visitor call returned an
error; no run and no visitor call has the empty statement; every run
carries the verdict and outcomes that `BySql` returns for its statement at
the state reached by the events before it; the visitor calls are, in order
and with the same outcomes, the runs whose verdict was inconsistent, each
call coming directly after its run and carrying the error that `visitor`
returns on those arguments at the state reached; a visitor call that
returned an error is the last event of the batch; and the final state is
the state reached by the whole record. -/
theorem ByDb_visits (isExec : GoString → Bool) (db1 : Db S1) (db2 : Db S2) (nonOrder : Bool)
    (visitor : Visitor V) (sqls : List GoString) (w : World S1 S2 V) :
    ByDb isExec db1 db2 nonOrder visitor (sqls.filter (fun sql => decide (sql ≠ []))) w =
        ByDb isExec db1 db2 nonOrder visitor sqls w ∧
      (ByDb isExec db1 db2 nonOrder visitor sqls w).2.1.filterMap Event.runSql <+:
        sqls.filter (fun sql => decide (sql ≠ [])) ∧
      ((∀ ev ∈ (ByDb isExec db1 db2 nonOrder visitor sqls w).2.1, ev.visitError = none) →
        (ByDb isExec db1 db2 nonOrder visitor sqls w).2.1.filterMap Event.runSql =
          sqls.filter (fun sql => decide (sql ≠ []))) ∧
      (∀ ev ∈ (ByDb isExec db1 db2 nonOrder visitor sqls w).2.1,
        ev.runSql ≠ some [] ∧ ∀ r1 r2 : DsnRes, ev.visitCall ≠ some ([], r1, r2)) ∧
      (ByDb isExec db1 db2 nonOrder visitor sqls w).2.1.filterMap Event.visitCall =
        (ByDb isExec db1 db2 nonOrder visitor sqls w).2.1.filterMap Event.inconsistentRun ∧
      (∀ (pre post : List Event) (sql : GoString) (r1 r2 : DsnRes),
        (ByDb isExec db1 db2 nonOrder visitor sqls w).2.1 =
            pre ++ Event.run sql false r1 r2 :: post →
          ∃ err post', post = Event.visit sql r1 r2 err :: post') ∧
      (∀ (pre post : List Event) (sql : GoString) (r1 r2 : DsnRes) (err : Option GoError),
        (ByDb isExec db1 db2 nonOrder visitor sqls w).2.1 =
            pre ++ Event.visit sql r1 r2 err :: post →
          ∃ pre', pre = pre' ++ [Event.run sql false r1 r2]) ∧
      (∀ (pre post : List Event) (sql : GoString) (r1 r2 : DsnRes) (e : GoError),
        (ByDb isExec db1 db2 nonOrder visitor sqls w).2.1 =
            pre ++ Event.visit sql r1 r2 (some e) :: post → post = []) ∧
      (∀ (pre post : List Event) (sql : GoString) (c : Bool) (r1 r2 : DsnRes),
        (ByDb isExec db1 db2 nonOrder visitor sqls w).2.1 =
            pre ++ Event.run sql c r1 r2 :: post →
          (BySql isExec sql db1 db2 nonOrder
            (replay isExec db1 db2 nonOrder visitor w pre).s1
            (replay isExec db1 db2 nonOrder visitor w pre).s2).1 = .ok (c, r1, r2)) ∧
      (∀ (pre post : List Event) (sql : GoString) (r1 r2 : DsnRes) (err : Option GoError),
        (ByDb isExec db1 db2 nonOrder visitor sqls w).2.1 =
            pre ++ Event.visit sql r1 r2 err :: post →
          (visitor sql r1 r2 (replay isExec db1 db2 nonOrder visitor w pre).v).1 = err) ∧
      (ByDb isExec db1 db2 nonOrder visitor sqls w).2.2 =
        replay isExec db1 db2 nonOrder visitor w
          (ByDb isExec db1 db2 nonOrder visitor sqls w).2.1 := by
  have hsh := ByDb_shape isExec db1 db2 nonOrder visitor sqls w
  have hf := ByDb_faithful isExec db1 db2 nonOrder visitor sqls w
  refine ⟨ByDb_filter isExec db1 db2 nonOrder visitor sqls w, hsh.runs_initial, ?_,
    hsh.runs_nonempty, hsh.visits_eq, hsh.visit_follows_run, hsh.run_precedes_visit, ?_,
    hf.run_is_BySql, hf.visit_is_visitor, hf.world_eq⟩
  · intro hall
    apply hsh.runs_all
    rw [hsh.result_eq]
    have : (ByDb isExec db1 db2 nonOrder visitor sqls w).2.1.filterMap Event.visitError = [] := by
      rw [List.filterMap_eq_nil_iff]
      exact hall
    rw [this]
    rfl
  · intro pre post sql r1 r2 e h
    exact (hsh.error_last pre post sql r1 r2 e h).1

/-- C6.  `ByDb` always returns, and what it returns is the first error
returned by a call of the visitor, nil when there is none.  The calls are
the visitor's own: every run of the record carries the verdict that `BySql`
returns at the state reached, every inconsistent run is followed by the
call of the visitor on its statement and outcomes, and every call carries
the error that `visitor` returns on those arguments at the state reached;
the runs are the non-empty statements in input order, all of them when the
result is nil.  At most one call returns an error; the result is the error
`e` exactly when some call returned `e`, and then that call is the last
event and `e` is what `visitor` returned there; the result is nil exactly
when no call returned an error, which is the case when every run was
consistent; on the empty list and on a list of empty statements it returns
nil without running anything. -/
theorem ByDb_error (isExec : GoString → Bool) (db1 : Db S1) (db2 : Db S2) (nonOrder : Bool)
    (visitor : Visitor V) (sqls : List GoString) (w : World S1 S2 V) :
    (ByDb isExec db1 db2 nonOrder visitor sqls w).1 =
        .ok ((ByDb isExec db1 db2 nonOrder visitor sqls w).2.1.filterMap Event.visitError).head? ∧
      ((ByDb isExec db1 db2 nonOrder visitor sqls w).2.1.filterMap Event.visitError).length ≤ 1 ∧
      (∀ e : GoError, (ByDb isExec db1 db2 nonOrder visitor sqls w).1 = .ok (some e) ↔
        ∃ sql r1 r2,
          Event.visit sql r1 r2 (some e) ∈ (ByDb isExec db1 db2 nonOrder visitor sqls w).2.1) ∧
      ((ByDb isExec db1 db2 nonOrder visitor sqls w).1 = .ok none ↔
        ∀ ev ∈ (ByDb isExec db1 db2 nonOrder visitor sqls w).2.1, ev.visitError = none) ∧
      ((∀ ev ∈ (ByDb isExec db1 db2 nonOrder visitor sqls w).2.1, ev.inconsistentRun = none) →
        (ByDb isExec db1 db2 nonOrder visitor sqls w).1 = .ok none) ∧
      ByDb isExec db1 db2 nonOrder visitor [] w = (.ok none, [], w) ∧
      (∀ n : Nat,
        ByDb isExec db1 db2 nonOrder visitor (List.replicate n []) w = (.ok none, [], w)) ∧
      (∀ (pre post : List Event) (sql : GoString) (c : Bool) (r1 r2 : DsnRes),
        (ByDb isExec db1 db2 nonOrder visitor sqls w).2.1 =
            pre ++ Event.run sql c r1 r2 :: post →
          (BySql isExec sql db1 db2 nonOrder
            (replay isExec db1 db2 nonOrder visitor w pre).s1
            (replay isExec db1 db2 nonOrder visitor w pre).s2).1 = .ok (c, r1, r2)) ∧
      (∀ (pre post : List Event) (sql : GoString) (r1 r2 : DsnRes),
        (ByDb isExec db1 db2 nonOrder visitor sqls w).2.1 =
            pre ++ Event.run sql false r1 r2 :: post →
          ∃ err post', post = Event.visit sql r1 r2 err :: post') ∧
      (∀ (pre post : List Event) (sql : GoString) (r1 r2 : DsnRes) (err : Option GoError),
        (ByDb isExec db1 db2 nonOrder visitor sqls w).2.1 =
            pre ++ Event.visit sql r1 r2 err :: post →
          (visitor sql r1 r2 (replay isExec db1 db2 nonOrder visitor w pre).v).1 = err) ∧
      (ByDb isExec db1 db2 nonOrder visitor sqls w).2.1.filterMap Event.runSql <+:
        sqls.filter (fun sql => decide (sql ≠ [])) ∧
      ((ByDb isExec db1 db2 nonOrder visitor sqls w).1 = .ok none →
        (ByDb isExec db1 db2 nonOrder visitor sqls w).2.1.filterMap Event.runSql =
          sqls.filter (fun sql => decide (sql ≠ []))) ∧
      (∀ e : GoError, (ByDb isExec db1 db2 nonOrder visitor sqls w).1 = .ok (some e) →
        ∃ pre sql r1 r2,
          (ByDb isExec db1 db2 nonOrder visitor sqls w).2.1 =
              pre ++ [Event.visit sql r1 r2 (some e)] ∧
            (visitor sql r1 r2 (replay isExec db1 db2 nonOrder visitor w pre).v).1 = some e) := by
  have hsh := ByDb_shape isExec db1 db2 nonOrder visitor sqls w
  have hf := ByDb_faithful isExec db1 db2 nonOrder visitor sqls w
  have hres := hsh.result_eq
  have hlen := hsh.visitErrors_length
  have hnone : (ByDb isExec db1 db2 nonOrder visitor sqls w).1 = .ok none ↔
      ∀ ev ∈ (ByDb isExec db1 db2 nonOrder visitor sqls w).2.1, ev.visitError = none := by
    rw [hres, ← List.filterMap_eq_nil_iff]
    constructor
    · intro h
      have h' := Except.ok.inj h
      exact List.head?_eq_none_iff.1 h'
    · intro h
      rw [h]
      rfl
  have hsome : ∀ e : GoError, (ByDb isExec db1 db2 nonOrder visitor sqls w).1 = .ok (some e) ↔
      ∃ sql r1 r2,
        Event.visit sql r1 r2 (some e) ∈ (ByDb isExec db1 db2 nonOrder visitor sqls w).2.1 := by
    intro e
    rw [hres]
    constructor
    · intro h
      have h' := Except.ok.inj h
      rw [head?_eq_some_of_length_le_one _ hlen, List.mem_filterMap] at h'
      obtain ⟨ev, hev, hve⟩ := h'
      obtain ⟨sql, r1, r2, rfl⟩ := (Event.visitError_eq_some ev e).1 hve
      exact ⟨sql, r1, r2, hev⟩
    · rintro ⟨sql, r1, r2, hmem⟩
      have : e ∈ (ByDb isExec db1 db2 nonOrder visitor sqls w).2.1.filterMap Event.visitError :=
        List.mem_filterMap.2 ⟨_, hmem, rfl⟩
      rw [(head?_eq_some_of_length_le_one _ hlen e).2 this]
  refine ⟨hres, hlen, hsome, hnone, ?_, rfl, ?_, hf.run_is_BySql, hsh.visit_follows_run,
    hf.visit_is_visitor, hsh.runs_initial, hsh.runs_all, ?_⟩
  · intro hall
    rw [hnone]
    have hv : (ByDb isExec db1 db2 nonOrder visitor sqls w).2.1.filterMap Event.visitCall = [] := by
      rw [hsh.visits_eq, List.filterMap_eq_nil_iff]
      exact hall
    intro ev hev
    cases ev with
    | run sql c a b => rfl
    | halted sql x => rfl
    | visit sql a b err =>
      have := (List.filterMap_eq_nil_iff.1 hv) _ hev
      cases this
  · intro n
    induction n with
    | zero => rfl
    | succ n ih =>
      rw [List.replicate_succ, ByDb_cons_nil, ih]
  · intro e he
    obtain ⟨sql, r1, r2, hmem⟩ := (hsome e).1 he
    obtain ⟨pre, post, hdec⟩ := List.append_of_mem hmem
    have hpost := (hsh.error_last pre post sql r1 r2 e hdec).1
    subst hpost
    exact ⟨pre, sql, r1, r2, hdec, hf.visit_is_visitor pre [] sql r1 r2 (some e) hdec⟩

/-- The end-to-end scenario: a read whose rows come back in the two orders, an
empty statement and a write with equal counts.  In unordered mode the batch
returns nil, runs two statements and never calls the visitor; in ordered
mode the read is reported once. -/
theorem ByDb_scenario :
    (ByDb scenarioIsExec (constDb (.ok (twoRowResult ['1'] ['2'])) 1 none)
        (constDb (.ok (twoRowResult ['2'] ['1'])) 1 none) true countingVisitor scenarioSqls
        ⟨(), (), 0⟩).1 = .ok none ∧
      (ByDb scenarioIsExec (constDb (.ok (twoRowResult ['1'] ['2'])) 1 none)
        (constDb (.ok (twoRowResult ['2'] ['1'])) 1 none) true countingVisitor scenarioSqls
        ⟨(), (), 0⟩).2.1.length = 2 ∧
      (ByDb scenarioIsExec (constDb (.ok (twoRowResult ['1'] ['2'])) 1 none)
        (constDb (.ok (twoRowResult ['2'] ['1'])) 1 none) true countingVisitor scenarioSqls
        ⟨(), (), 0⟩).2.2.v = 0 ∧
      (ByDb scenarioIsExec (constDb (.ok (twoRowResult ['1'] ['2'])) 1 none)
        (constDb (.ok (twoRowResult ['2'] ['1'])) 1 none) false countingVisitor scenarioSqls
        ⟨(), (), 0⟩).2.2.v = 1 := by
  refine ⟨?_, by decide, by decide, by decide⟩
  have h : (ByDb scenarioIsExec (constDb (.ok (twoRowResult ['1'] ['2'])) 1 none)
        (constDb (.ok (twoRowResult ['2'] ['1'])) 1 none) true countingVisitor scenarioSqls
        ⟨(), (), 0⟩).2.1.filterMap Event.visitError = [] := by decide
  rw [(ByDb_shape _ _ _ _ _ _ _).result_eq, h]
  rfl

/-- Two reads, both inconsistent, and a visitor that fails every report: the
batch returns the visitor's error, the visitor was called once, and the
record is the first run and its report. -/
theorem ByDb_stops_at_first_error :
    (ByDb allReads (constDb (.ok (oneCellResult ['1'])) 0 none)
        (constDb (.ok (oneCellResult ['2'])) 0 none) false rejectingVisitor
        [selectOne, selectOne] ⟨(), (), 0⟩).1 = .ok (some syntaxError) ∧
      (ByDb allReads (constDb (.ok (oneCellResult ['1'])) 0 none)
        (constDb (.ok (oneCellResult ['2'])) 0 none) false rejectingVisitor
        [selectOne, selectOne] ⟨(), (), 0⟩).2.2.v = 1 ∧
      (ByDb allReads (constDb (.ok (oneCellResult ['1'])) 0 none)
        (constDb (.ok (oneCellResult ['2'])) 0 none) false rejectingVisitor
        [selectOne, selectOne] ⟨(), (), 0⟩).2.1 =
        [Event.run selectOne false (.query ⟨some (oneCellResult ['1']), none⟩)
            (.query ⟨some (oneCellResult ['2']), none⟩),
          Event.visit selectOne (.query ⟨some (oneCellResult ['1']), none⟩)
            (.query ⟨some (oneCellResult ['2']), none⟩) (some syntaxError)] := by
  have ht : (ByDb allReads (constDb (.ok (oneCellResult ['1'])) 0 none)
        (constDb (.ok (oneCellResult ['2'])) 0 none) false rejectingVisitor
        [selectOne, selectOne] ⟨(), (), 0⟩).2.1 =
        [Event.run selectOne false (.query ⟨some (oneCellResult ['1']), none⟩)
            (.query ⟨some (oneCellResult ['2']), none⟩),
          Event.visit selectOne (.query ⟨some (oneCellResult ['1']), none⟩)
            (.query ⟨some (oneCellResult ['2']), none⟩) (some syntaxError)] := by decide
  refine ⟨?_, by decide, ht⟩
  rw [(ByDb_shape _ _ _ _ _ _ _).result_eq, ht]
  rfl

end Batch

/-! ## Cells, signatures and row order in the warehouse read path -/

section Signatures

variable {Value : Type} (Sprint : Value → GoString)

theorem sliceBytes_bufferBytes (s : GoString) : sliceBytes (bufferBytes s) = s := by
  unfold bufferBytes
  split
  · next h => rw [h]; rfl
  · rfl

theorem takeWhile_of_not_mem (s : GoString) (h : '.' ∉ s) :
    s.takeWhile (fun c => decide (c ≠ '.')) = s := by
  rw [List.takeWhile_eq_self_iff]
  intro c hc
  have : c ≠ '.' := fun hcd => h (hcd ▸ hc)
  simpa using this

theorem takeWhile_of_split (pre post : GoString) (h : '.' ∉ pre) :
    (pre ++ '.' :: post).takeWhile (fun c => decide (c ≠ '.')) = pre := by
  induction pre with
  | nil => simp
  | cons c cs ih =>
    have hc : c ≠ '.' := fun hcd => h (by simp [hcd])
    have hcs : '.' ∉ cs := fun hm => h (List.mem_cons_of_mem _ hm)
    show List.takeWhile _ (c :: (cs ++ '.' :: post)) = c :: cs
    rw [List.takeWhile_cons_of_pos (by simpa using hc), ih hcs]

/-- C9.  A non-NULL cell of a column tagged `TIMESTAMP_TYPE` is stored as, and
contributes to the row signature (followed by a tab), the text of its value
cut before the first `.`; the cut leaves a text without `.` unchanged and a
text `pre.post`, `pre` without `.`, becomes `pre`.  A non-NULL cell of a
column with another tag is stored and contributes in full.  A row's stored
cells and signature are its cells' stored values and the concatenation of
their contributions. -/
theorem hive_timestamp_cell (d : ColDesc) (row : GoString → Option Value) (v : Value)
    (hv : row d.name = some v) :
    (d.typeTag = TIMESTAMP_TYPE →
      hiveCell Sprint d row =
          (bufferBytes ((Sprint v).takeWhile (fun c => decide (c ≠ '.'))),
            (Sprint v).takeWhile (fun c => decide (c ≠ '.')) ++ ['\t']) ∧
        sliceBytes (hiveCell Sprint d row).1 = (Sprint v).takeWhile (fun c => decide (c ≠ '.'))) ∧
      (d.typeTag ≠ TIMESTAMP_TYPE →
        hiveCell Sprint d row = (bufferBytes (Sprint v), Sprint v ++ ['\t']) ∧
          sliceBytes (hiveCell Sprint d row).1 = Sprint v) ∧
      ('.' ∉ Sprint v → (Sprint v).takeWhile (fun c => decide (c ≠ '.')) = Sprint v) ∧
      (∀ pre post : GoString, Sprint v = pre ++ '.' :: post → '.' ∉ pre →
        (Sprint v).takeWhile (fun c => decide (c ≠ '.')) = pre) ∧
      (∀ desc : List ColDesc,
        hiveRow Sprint desc row =
          (desc.map (fun d => (hiveCell Sprint d row).1),
            (desc.map (fun d => (hiveCell Sprint d row).2)).flatten)) := by
  refine ⟨?_, ?_, takeWhile_of_not_mem _, ?_, fun desc => hiveRow_eq Sprint desc row⟩
  · intro ht
    have h : hiveCell Sprint d row =
        (bufferBytes ((Sprint v).takeWhile (fun c => decide (c ≠ '.'))),
          (Sprint v).takeWhile (fun c => decide (c ≠ '.')) ++ ['\t']) := by
      simp [hiveCell, hv, cellValueStr, ht, splitFirst_eq_takeWhile]
    exact ⟨h, by rw [h]; exact sliceBytes_bufferBytes _⟩
  · intro ht
    have h : hiveCell Sprint d row = (bufferBytes (Sprint v), Sprint v ++ ['\t']) := by
      simp [hiveCell, hv, cellValueStr, ht]
    exact ⟨h, by rw [h]; exact sliceBytes_bufferBytes _⟩
  · intro pre post hs hp
    rw [hs]
    exact takeWhile_of_split pre post hp

/-- C9 at the timestamp `2024-01-01 00:00:00.123`: it is stored and signed as
`2024-01-01 00:00:00`, as the timestamp `2024-01-01 00:00:00` itself is. -/
theorem hive_timestamp_cell_witness :
    textRow "2024-01-01 00:00:00.123".toList tsColumn.name = some "2024-01-01 00:00:00.123".toList ∧
      tsColumn.typeTag = TIMESTAMP_TYPE ∧
      hiveCell id tsColumn (textRow "2024-01-01 00:00:00.123".toList) =
        (some "2024-01-01 00:00:00".toList, "2024-01-01 00:00:00\t".toList) ∧
      hiveCell id tsColumn (textRow "2024-01-01 00:00:00.123".toList) =
        hiveCell id tsColumn (textRow "2024-01-01 00:00:00".toList) :=
  ⟨rfl, rfl,
    ((hive_timestamp_cell id tsColumn (textRow "2024-01-01 00:00:00.123".toList)
      "2024-01-01 00:00:00.123".toList rfl).1 rfl).1.trans (by decide),
    ((hive_timestamp_cell id tsColumn (textRow "2024-01-01 00:00:00.123".toList)
      "2024-01-01 00:00:00.123".toList rfl).1 rfl).1.trans (by decide)⟩

theorem hiveResult_cursorOf (desc : List ColDesc) (rows : List (GoString → Option Value)) :
    hiveResult Sprint (cursorOf desc rows) =
      { Data := rows.map (fun row => (hiveRow Sprint desc row).1)
        Rows := (rows.map (fun row => (hiveRow Sprint desc row).2)).toFinset
        Header := desc.map (fun d => d.name) } := by
  simp [hiveResult, cursorOf, hiveRows_eq]

/-- The signature set is a function of the set of fetched rows. -/
theorem hiveRows_rowSet_congr (desc : List ColDesc) (rows1 rows2 : List (GoString → Option Value))
    (h : ∀ r, r ∈ rows1 ↔ r ∈ rows2) :
    (hiveRows Sprint desc rows1).2 = (hiveRows Sprint desc rows2).2 := by
  rw [hiveRows_eq, hiveRows_eq]
  ext x
  simp only [List.mem_toFinset, List.mem_map]
  constructor
  · rintro ⟨r, hr, rfl⟩
    exact ⟨r, (h r).1 hr, rfl⟩
  · rintro ⟨r, hr, rfl⟩
    exact ⟨r, (h r).2 hr, rfl⟩

/-- C10 as stated fails in its last part: two fetched rows whose timestamps
differ only after the `.` are different rows, the permutation that swaps
them moves each to the position of the other, and the two ordered row
lists are equal. -/
theorem ordered_lists_equal_for_different_rows :
    [textRow "2024-01-01 00:00:00.1".toList, textRow "2024-01-01 00:00:00.2".toList].Perm
        [textRow "2024-01-01 00:00:00.2".toList, textRow "2024-01-01 00:00:00.1".toList] ∧
      textRow "2024-01-01 00:00:00.1".toList ≠ textRow "2024-01-01 00:00:00.2".toList ∧
      (hiveRows id [tsColumn]
          [textRow "2024-01-01 00:00:00.1".toList, textRow "2024-01-01 00:00:00.2".toList]).1 =
        (hiveRows id [tsColumn]
          [textRow "2024-01-01 00:00:00.2".toList, textRow "2024-01-01 00:00:00.1".toList]).1 := by
  refine ⟨List.Perm.swap _ _ _, ?_, by decide⟩
  intro h
  exact absurd (congrFun h []) (by decide)

/-- C10, amended.  For every sequence of fetched rows and every permutation
of it the two signature sets built are equal, so that unordered comparison
of the two results says equal; the set is the same again when every row is
fetched twice, and for any sequence with the same rows.  The two ordered
row lists differ as soon as some position holds, in the two sequences, rows
whose stored cells differ, and ordered comparison then says different. -/
theorem hive_rowSet_perm (desc : List ColDesc) (rows1 rows2 : List (GoString → Option Value))
    (hperm : rows1.Perm rows2) :
    (hiveRows Sprint desc rows1).2 = (hiveRows Sprint desc rows2).2 ∧
      (hiveResult Sprint (cursorOf desc rows1)).NonOrderEqualTo
        (hiveResult Sprint (cursorOf desc rows2)) = true ∧
      (hiveRows Sprint desc (rows1 ++ rows1)).2 = (hiveRows Sprint desc rows1).2 ∧
      (∀ rows3 : List (GoString → Option Value), (∀ r, r ∈ rows1 ↔ r ∈ rows3) →
        (hiveRows Sprint desc rows1).2 = (hiveRows Sprint desc rows3).2) ∧
      (∀ (k : Nat) (ra rb : GoString → Option Value), rows1[k]? = some ra → rows2[k]? = some rb →
        (hiveRow Sprint desc ra).1 ≠ (hiveRow Sprint desc rb).1 →
          (hiveRows Sprint desc rows1).1 ≠ (hiveRows Sprint desc rows2).1 ∧
            (hiveResult Sprint (cursorOf desc rows1)).BytesEqualTo
              (hiveResult Sprint (cursorOf desc rows2)) = false) := by
  have hset : (hiveRows Sprint desc rows1).2 = (hiveRows Sprint desc rows2).2 :=
    hiveRows_rowSet_congr Sprint desc rows1 rows2 (fun r => hperm.mem_iff)
  refine ⟨hset, ?_, ?_, fun rows3 h => hiveRows_rowSet_congr Sprint desc rows1 rows3 h, ?_⟩
  · rw [NonOrderEqualTo_iff]
    exact hset
  · apply hiveRows_rowSet_congr
    intro r
    simp
  · intro k ra rb ha hb hne
    have hdata : (hiveRows Sprint desc rows1).1 ≠ (hiveRows Sprint desc rows2).1 := by
      rw [hiveRows_eq, hiveRows_eq]
      intro heq
      have hk := congrArg (fun l => l[k]?) heq
      simp only [List.getElem?_map, ha, hb, Option.map_some', Option.some.injEq] at hk
      exact hne hk
    refine ⟨hdata, ?_⟩
    rw [Bool.eq_false_iff, Ne, BytesEqualTo_iff]
    exact hdata

/-- C10, amended, at the rows `a`, `b` fetched in the two orders. -/
theorem hive_rowSet_perm_witness :
    [textRow ['a'], textRow ['b']].Perm [textRow ['b'], textRow ['a']] ∧
      (hiveRows id [strColumn] [textRow ['a'], textRow ['b']]).2 =
        (hiveRows id [strColumn] [textRow ['b'], textRow ['a']]).2 ∧
      (hiveRows id [strColumn] [textRow ['a'], textRow ['b']]).1 ≠
        (hiveRows id [strColumn] [textRow ['b'], textRow ['a']]).1 :=
  ⟨List.Perm.swap _ _ _,
    (hive_rowSet_perm id [strColumn] [textRow ['a'], textRow ['b']]
      [textRow ['b'], textRow ['a']] (List.Perm.swap _ _ _)).1,
    ((hive_rowSet_perm id [strColumn] [textRow ['a'], textRow ['b']]
      [textRow ['b'], textRow ['a']] (List.Perm.swap _ _ _)).2.2.2.2 0 (textRow ['a'])
      (textRow ['b']) rfl rfl (by decide)).1⟩

theorem hiveCell_snd (d : ColDesc) (row : GoString → Option Value) :
    (hiveCell Sprint d row).2 = cellText Sprint d row ++ ['\t'] := by
  unfold hiveCell cellText
  cases row d.name <;> rfl

/-- Two texts without a tab, each followed by a tab and more text, give the
same text only when they are equal and what follows is equal. -/
theorem tab_split (a b x y : GoString) (ha : '\t' ∉ a) (hb : '\t' ∉ b)
    (h : a ++ '\t' :: x = b ++ '\t' :: y) : a = b ∧ x = y := by
  induction a generalizing b with
  | nil =>
    cases b with
    | nil => simpa using h
    | cons c cs =>
      simp only [List.nil_append, List.cons_append, List.cons.injEq] at h
      exact absurd (by simp [← h.1]) hb
  | cons c cs ih =>
    cases b with
    | nil =>
      simp only [List.nil_append, List.cons_append, List.cons.injEq] at h
      exact absurd (by simp [h.1]) ha
    | cons c' cs' =>
      simp only [List.cons_append, List.cons.injEq] at h
      have hcs : '\t' ∉ cs := fun hm => ha (List.mem_cons_of_mem _ hm)
      have hcs' : '\t' ∉ cs' := fun hm => hb (List.mem_cons_of_mem _ hm)
      obtain ⟨h1, h2⟩ := ih cs' hcs hcs' h.2
      exact ⟨by rw [h.1, h1], h2⟩

/-- Signatures that agree agree after a common run of tab-free columns. -/
theorem signature_cancel_left (pre : List ColDesc) (row1 row2 : GoString → Option Value)
    (x y : GoString)
    (hpre : ∀ c ∈ pre, '\t' ∉ cellText Sprint c row1 ∧ '\t' ∉ cellText Sprint c row2)
    (h : (pre.map (fun d => (hiveCell Sprint d row1).2)).flatten ++ x =
      (pre.map (fun d => (hiveCell Sprint d row2).2)).flatten ++ y) : x = y := by
  induction pre with
  | nil => simpa using h
  | cons c cs ih =>
    simp only [List.map_cons, List.flatten_cons, hiveCell_snd, List.append_assoc,
      List.singleton_append] at h
    have hc := hpre c (List.mem_cons_self _ _)
    have h2 := (tab_split _ _ _ _ hc.1 hc.2 h).2
    apply ih (fun c' hc' => hpre c' (List.mem_cons_of_mem _ hc'))
    simpa [hiveCell_snd] using h2

/-- C8 as stated fails: over one string column, the row whose cell is NULL
and the row whose cell is the text `NULL` have the same signature, and the
two one-row results are equal for unordered comparison. -/
theorem null_marker_collides :
    nullRow strColumn.name = none ∧
      textRow ['N', 'U', 'L', 'L'] strColumn.name = some ['N', 'U', 'L', 'L'] ∧
      (hiveRow id [strColumn] nullRow).2 = (hiveRow id [strColumn] (textRow ['N', 'U', 'L', 'L'])).2 ∧
      (hiveResult id (cursorOf [strColumn] [nullRow])).NonOrderEqualTo
        (hiveResult id (cursorOf [strColumn] [textRow ['N', 'U', 'L', 'L']])) = true := by
  refine ⟨rfl, rfl, by decide, ?_⟩
  rw [NonOrderEqualTo_iff, hiveResult_cursorOf, hiveResult_cursorOf]
  decide

/-- A value whose text is empty is stored as a nil cell, as NULL is; its
signature text is the lone tab. -/
theorem empty_text_stored_as_nil :
    hiveCell id strColumn (textRow []) = (none, ['\t']) ∧
      (hiveCell id strColumn nullRow).1 = none := by
  decide

/-- C8, amended.  Two rows over the same columns, NULL at a position in the
first and a value there in the second.  If the text of the value is not
empty the stored rows differ, and ordered comparison of the two one-row
results says different.  If the text of the value is not `NULL` and holds
no tab, and no cell before that position holds a tab in its text in either
row, the two signatures differ, and unordered comparison of the two one-row
results says different. -/
theorem null_cell_registers (pre post : List ColDesc) (d : ColDesc)
    (row1 row2 : GoString → Option Value) (v : Value)
    (hnull : row1 d.name = none) (hval : row2 d.name = some v) :
    (cellValueStr Sprint d v ≠ [] →
      (hiveRow Sprint (pre ++ d :: post) row1).1 ≠ (hiveRow Sprint (pre ++ d :: post) row2).1 ∧
        (hiveResult Sprint (cursorOf (pre ++ d :: post) [row1])).BytesEqualTo
          (hiveResult Sprint (cursorOf (pre ++ d :: post) [row2])) = false) ∧
      (cellValueStr Sprint d v ≠ ['N', 'U', 'L', 'L'] → '\t' ∉ cellValueStr Sprint d v →
        (∀ c ∈ pre, '\t' ∉ cellText Sprint c row1 ∧ '\t' ∉ cellText Sprint c row2) →
        (hiveRow Sprint (pre ++ d :: post) row1).2 ≠ (hiveRow Sprint (pre ++ d :: post) row2).2 ∧
          (hiveResult Sprint (cursorOf (pre ++ d :: post) [row1])).NonOrderEqualTo
            (hiveResult Sprint (cursorOf (pre ++ d :: post) [row2])) = false) := by
  refine ⟨?_, ?_⟩
  · intro hnonempty
    have hcells : (hiveRow Sprint (pre ++ d :: post) row1).1 ≠
        (hiveRow Sprint (pre ++ d :: post) row2).1 := by
      rw [hiveRow_eq, hiveRow_eq]
      intro heq
      simp only [List.map_append, List.map_cons] at heq
      have htail := (List.append_inj heq (by simp)).2
      simp only [List.cons.injEq] at htail
      have hhead := htail.1
      simp [hiveCell, hnull, hval, bufferBytes, hnonempty] at hhead
    refine ⟨hcells, ?_⟩
    rw [Bool.eq_false_iff, Ne, BytesEqualTo_iff, hiveResult_cursorOf, hiveResult_cursorOf]
    intro heq
    simp only [List.map_cons, List.map_nil, List.cons.injEq, and_true] at heq
    exact hcells heq
  · intro hne htab hpre
    have hsig : (hiveRow Sprint (pre ++ d :: post) row1).2 ≠
        (hiveRow Sprint (pre ++ d :: post) row2).2 := by
      rw [hiveRow_eq, hiveRow_eq]
      intro heq
      simp only [List.map_append, List.map_cons, List.flatten_append, List.flatten_cons] at heq
      have hx := signature_cancel_left Sprint pre row1 row2 _ _ hpre heq
      have h1 : cellText Sprint d row1 = ['N', 'U', 'L', 'L'] := by simp [cellText, hnull]
      have h2 : cellText Sprint d row2 = cellValueStr Sprint d v := by simp [cellText, hval]
      rw [hiveCell_snd, hiveCell_snd, h1, h2, List.append_assoc, List.append_assoc,
        List.singleton_append, List.singleton_append] at hx
      exact hne (tab_split _ _ _ _ (by decide) htab hx).1.symm
    refine ⟨hsig, ?_⟩
    rw [Bool.eq_false_iff, Ne, NonOrderEqualTo_iff, hiveResult_cursorOf, hiveResult_cursorOf]
    intro heq
    simp only [List.map_cons, List.map_nil, List.toFinset_cons, List.toFinset_nil,
      insert_emptyc_eq, Finset.singleton_inj] at heq
    exact hsig heq

/-- C8, amended, at a NULL and the text `x` in the second of two string
columns. -/
theorem null_cell_registers_witness :
    (fun n => if n = ['d'] then none else some ['a']) (⟨['d'], "STRING_TYPE".toList⟩ : ColDesc).name
        = (none : Option GoString) ∧
      textRow ['x'] (⟨['d'], "STRING_TYPE".toList⟩ : ColDesc).name = some ['x'] ∧
      (hiveRow id ([strColumn] ++ ⟨['d'], "STRING_TYPE".toList⟩ :: [])
          (fun n => if n = ['d'] then none else some ['a'])).1 ≠
        (hiveRow id ([strColumn] ++ ⟨['d'], "STRING_TYPE".toList⟩ :: []) (textRow ['x'])).1 ∧
      (hiveRow id ([strColumn] ++ ⟨['d'], "STRING_TYPE".toList⟩ :: [])
          (fun n => if n = ['d'] then none else some ['a'])).2 ≠
        (hiveRow id ([strColumn] ++ ⟨['d'], "STRING_TYPE".toList⟩ :: []) (textRow ['x'])).2 :=
  ⟨rfl, rfl,
    ((null_cell_registers id [strColumn] [] ⟨['d'], "STRING_TYPE".toList⟩
      (fun n => if n = ['d'] then none else some ['a']) (textRow ['x']) ['x'] rfl rfl).1
      (by decide)).1,
    ((null_cell_registers id [strColumn] [] ⟨['d'], "STRING_TYPE".toList⟩
      (fun n => if n = ['d'] then none else some ['a']) (textRow ['x']) ['x'] rfl rfl).2
      (by decide) (by decide) (by decide)).1⟩

end Signatures

end Compare
